import Mathlib

/-!
# Verification of the gosuresql connection/token pool manager

A shallow embedding of the gosuresql client library (Go) in Lean 4.
Go maps are modelled as association lists with distinct keys, pointers to
connections as structurally-distinct values (each carries a `connID` that
models its allocation identity), `time.Time` and `time.Duration` as `Int`,
and the network as an oracle: a list of exchange outcomes consumed one per
HTTP call, together with a trace of the endpoints called.
Go panics (close of a closed channel, nil-pointer dereference) are modelled
as distinguished error values.
-/

namespace GoSureSQL

/-- Association-list lookup, first matching key wins (models Go map read). -/
def lookupA {α : Type} : List (String × α) → String → Option α
  | [], _ => none
  | (k', v) :: rest, k => if k' = k then some v else lookupA rest k

/-- Association-list update: replace the first binding of `k`, or append a new
binding (models Go map write). -/
def setA {α : Type} : List (String × α) → String → α → List (String × α)
  | [], k, v => [(k, v)]
  | (k', v') :: rest, k, v =>
    if k' = k then (k, v) :: rest else (k', v') :: setA rest k v

/-- Association-list deletion of the first binding of `k` (models Go `delete`). -/
def eraseA {α : Type} : List (String × α) → String → List (String × α)
  | [], _ => []
  | (k', v') :: rest, k => if k' = k then rest else (k', v') :: eraseA rest k

/-- The keys of an association list, in order. -/
def keysA {α : Type} (m : List (String × α)) : List String :=
  m.map Prod.fst

/-! ## Data model (source: models.go) -/

/-- `suresql.TokenTable`: the access/refresh token pair. -/
structure TokenTable where
  token : String
  refresh : String
deriving DecidableEq

/-- A `Connection` (models.go): an authenticated session to one node.
`connID` models the Go pointer identity of the `*Connection`; two distinct
allocations carry distinct `connID`s, and Go pointer comparison (`c == conn`)
becomes structural equality. Times are `Int` (Unix-style instants). -/
structure Connection where
  url : String
  token : TokenTable
  nodeID : String
  isLeader : Bool
  mode : String
  lastUsed : Int
  lastRefresh : Int
  created : Int
  connID : Nat
deriving DecidableEq

/-- A throwaway default connection (used only for total indexing in statements). -/
def dummyConn : Connection :=
  { url := "", token := { token := "", refresh := "" }, nodeID := "", isLeader := false,
    mode := "", lastUsed := 0, lastRefresh := 0, created := 0, connID := 0 }

instance : Inhabited Connection := ⟨dummyConn⟩

/-- `ConnectionPool` (models.go): sessions grouped by node id with per-node
round-robin indices and a node-level round-robin cursor. The per-node HTTP
clients are opaque handles (`Nat`). -/
structure ConnectionPool where
  nodeConnections : List (String × List Connection)
  nodeRoundRobinIndices : List (String × Nat)
  nodeOrder : List String
  nodeOrderIndex : Nat
  isWritePool : Bool
  maxPool : Int
  maxWritePool : Int
  nodeHTTPClients : List (String × Nat)
deriving DecidableEq

/-! ## ConnectionPool operations (source: pool.go) -/

namespace ConnectionPool

/-- `NewConnectionPool` (pool.go). -/
def new (isWrite : Bool) (maxRead maxWrite : Int) : ConnectionPool :=
  { nodeConnections := [], nodeRoundRobinIndices := [], nodeOrder := [],
    nodeOrderIndex := 0, isWritePool := isWrite, maxPool := maxRead,
    maxWritePool := maxWrite, nodeHTTPClients := [] }

/-- `Size` (pool.go): total number of connections over all node buckets. -/
def size (p : ConnectionPool) : Nat :=
  (p.nodeConnections.map (fun e => e.2.length)).sum

/-- `SizeForNode` (pool.go). -/
def sizeForNode (p : ConnectionPool) (nodeID : String) : Nat :=
  ((lookupA p.nodeConnections nodeID).getD []).length

/-- The bucket of a node, empty when absent (Go map read with zero value). -/
def bucketOf (p : ConnectionPool) (nodeID : String) : List Connection :=
  (lookupA p.nodeConnections nodeID).getD []

/-- The per-node round-robin cursor, 0 when absent (Go map read). -/
def rrOf (p : ConnectionPool) (nodeID : String) : Nat :=
  (lookupA p.nodeRoundRobinIndices nodeID).getD 0

/-- `Add` (pool.go). -/
def add (p : ConnectionPool) (conn : Connection) : ConnectionPool :=
  let nodeID := conn.nodeID
  let p1 :=
    if (lookupA p.nodeConnections nodeID).isSome then p
    else { p with nodeConnections := setA p.nodeConnections nodeID [],
                  nodeRoundRobinIndices := setA p.nodeRoundRobinIndices nodeID 0,
                  nodeOrder := p.nodeOrder ++ [nodeID] }
  let bucket := ((lookupA p1.nodeConnections nodeID).getD []) ++ [conn]
  { p1 with nodeConnections := setA p1.nodeConnections nodeID bucket }

/-- The grouping step of `AddBatch` (pool.go): `connsByNode[nodeID] = append(...)`.
Groups preserve the order of first occurrence of each node id. -/
def groupByNode (conns : List Connection) : List (String × List Connection) :=
  conns.foldl
    (fun m cn => setA m cn.nodeID (((lookupA m cn.nodeID).getD []) ++ [cn])) []

/-- One iteration of the per-node loop of `AddBatch` (pool.go): create the
bucket, cursor and order entry when the node id is new, then append the
node's batch to its bucket. -/
def addGroupStep (p : ConnectionPool) (e : String × List Connection) : ConnectionPool :=
  let nodeID := e.1
  let p1 :=
    if (lookupA p.nodeConnections nodeID).isSome then p
    else { p with nodeConnections := setA p.nodeConnections nodeID [],
                  nodeRoundRobinIndices := setA p.nodeRoundRobinIndices nodeID 0,
                  nodeOrder := p.nodeOrder ++ [nodeID] }
  let bucket := ((lookupA p1.nodeConnections nodeID).getD []) ++ e.2
  { p1 with nodeConnections := setA p1.nodeConnections nodeID bucket }

/-- `AddBatch` (pool.go): group the batch by node id, then add each group to
its node's bucket in one critical section. -/
def addBatch (p : ConnectionPool) (conns : List Connection) : ConnectionPool :=
  if conns.isEmpty then p
  else (groupByNode conns).foldl addGroupStep p

/-- Removal of a node id from `nodeOrder` with the cursor adjustment performed
by `Remove` and `RemoveIdleConnections` (pool.go): erase the first occurrence,
then reset `nodeOrderIndex` to 0 when it points past the end of a non-empty
list. -/
def eraseFromOrder (p : ConnectionPool) (nodeID : String) : ConnectionPool :=
  if nodeID ∈ p.nodeOrder then
    let order' := p.nodeOrder.erase nodeID
    { p with nodeOrder := order',
             nodeOrderIndex :=
               if p.nodeOrderIndex ≥ order'.length ∧ order'.length > 0 then 0
               else p.nodeOrderIndex }
  else p

/-- The scan of `Remove` (pool.go): drop the first list element equal to the
target (Go pointer comparison `c == conn`); `none` when the target is absent. -/
def removeFirst : List Connection → Connection → Option (List Connection)
  | [], _ => none
  | c :: rest, target =>
    if c = target then some rest
    else (removeFirst rest target).map (fun l => c :: l)

/-- `Remove` (pool.go): remove one specific connection; when its bucket becomes
empty, drop the node from the mapping, the cursor map, the ordered node list
(write pools also drop the shared HTTP client). Returns whether a connection
was removed, with the resulting pool. -/
def remove (p : ConnectionPool) (conn : Connection) : Bool × ConnectionPool :=
  let nodeID := conn.nodeID
  match lookupA p.nodeConnections nodeID with
  | none => (false, p)
  | some nodeConns =>
    match removeFirst nodeConns conn with
    | none => (false, p)
    | some newList =>
      let p := { p with nodeConnections := setA p.nodeConnections nodeID newList }
      if newList.isEmpty then
        let p := { p with nodeConnections := eraseA p.nodeConnections nodeID,
                          nodeRoundRobinIndices := eraseA p.nodeRoundRobinIndices nodeID }
        let p :=
          if p.isWritePool then
            { p with nodeHTTPClients := eraseA p.nodeHTTPClients nodeID }
          else p
        (true, eraseFromOrder p nodeID)
      else (true, p)

/-- Errors surfaced (or panics reached) by `GetConnection` (pool.go). -/
inductive GetConnErr
  | noConnectionsAvailable
  | noConnectionsDespiteNodes
  | indexPanic
deriving DecidableEq

/-- The scan loop of `GetConnection` (pool.go): try node positions
`(nodeOrderIndex + i) % N` for `i = 0, 1, ...`; `fuel` counts the remaining
iterations (the loop body runs `N` times). On the first non-empty bucket,
take the session at the node's cursor, advance the cursor modulo the bucket
size, advance the node cursor past the served node, and stamp the session's
last-used time (a pointer write, so the bucket sees it too). -/
def getConnScan (now : Int) (p : ConnectionPool) :
    Nat → Nat → Except GetConnErr (Connection × ConnectionPool)
  | _, 0 => .error .noConnectionsDespiteNodes
  | i, Nat.succ fuel =>
    let n := p.nodeOrder.length
    let nodeIdx := (p.nodeOrderIndex + i) % n
    let nodeID := p.nodeOrder.getD nodeIdx ""
    let nodeConns := bucketOf p nodeID
    if nodeConns.isEmpty then getConnScan now p (i + 1) fuel
    else
      let connIdx := rrOf p nodeID
      match nodeConns.get? connIdx with
      | none => .error .indexPanic
      | some cn =>
        let cn' := { cn with lastUsed := now }
        .ok (cn',
          { p with
              nodeConnections := setA p.nodeConnections nodeID (nodeConns.set connIdx cn'),
              nodeRoundRobinIndices :=
                setA p.nodeRoundRobinIndices nodeID ((connIdx + 1) % nodeConns.length),
              nodeOrderIndex := (nodeIdx + 1) % n })

/-- `GetConnection` (pool.go): true node-level round-robin. -/
def getConnection (now : Int) (p : ConnectionPool) :
    Except GetConnErr (Connection × ConnectionPool) :=
  if p.nodeOrder.isEmpty then .error .noConnectionsAvailable
  else getConnScan now p 0 p.nodeOrder.length

/-- The idleness test of pool.go: `now.Sub(conn.LastUsed) > idleTimeout`. -/
def isIdle (now idleTimeout : Int) (cn : Connection) : Bool :=
  idleTimeout < now - cn.lastUsed

/-- The per-node body of `RemoveIdleConnections` (pool.go), producing the
node's new bucket: skip the node when at or below the minimum, keep all
active (recently used) sessions plus enough idle ones to respect the
minimum, removing the rest. -/
def reapBucket (now idleTimeout minSizePerNode : Int) (conns : List Connection) :
    List Connection :=
  if (conns.length : Int) ≤ minSizePerNode then conns
  else
    let idle := conns.filter (fun cn => isIdle now idleTimeout cn)
    let active := conns.filter (fun cn => ! isIdle now idleTimeout cn)
    let canRemove : Int := (conns.length : Int) - minSizePerNode
    let willRemove : Int := min (idle.length : Int) canRemove
    if willRemove ≤ 0 then conns
    else
      let keepIdle : Int := (idle.length : Int) - willRemove
      active ++ (if keepIdle > 0 then idle.take keepIdle.toNat else [])

/-- The state mutation of one `RemoveIdleConnections` iteration (pool.go),
given the node's freshly computed bucket: install the new bucket, reset the
cursor when it falls out of range, and when the bucket became empty drop the
node from the mapping, the cursor map and the ordered node list as `Remove`
does. -/
def reapApply (p : ConnectionPool) (nodeID : String) (newList : List Connection) :
    ConnectionPool :=
  let nc := setA p.nodeConnections nodeID newList
  let rr :=
    if rrOf p nodeID ≥ newList.length then setA p.nodeRoundRobinIndices nodeID 0
    else p.nodeRoundRobinIndices
  if newList.isEmpty then
    eraseFromOrder
      { p with nodeConnections := eraseA nc nodeID,
               nodeRoundRobinIndices := eraseA rr nodeID } nodeID
  else { p with nodeConnections := nc, nodeRoundRobinIndices := rr }

/-- One iteration of `RemoveIdleConnections` (pool.go) for one node entry of
the original mapping. Returns the updated pool and the number of connections
removed. -/
def reapStep (now idleTimeout minSizePerNode : Int) (p : ConnectionPool)
    (nodeID : String) (conns : List Connection) : ConnectionPool × Nat :=
  if (conns.length : Int) ≤ minSizePerNode then (p, 0)
  else
    let idle := conns.filter (fun cn => isIdle now idleTimeout cn)
    let canRemove : Int := (conns.length : Int) - minSizePerNode
    let willRemove : Int := min (idle.length : Int) canRemove
    if willRemove ≤ 0 then (p, 0)
    else
      (reapApply p nodeID (reapBucket now idleTimeout minSizePerNode conns),
       willRemove.toNat)

/-- The loop body of `RemoveIdleConnections` (pool.go), threading the pool
and the removed counter. -/
def reapFoldStep (now idleTimeout minSizePerNode : Int)
    (a : ConnectionPool × Nat) (e : String × List Connection) :
    ConnectionPool × Nat :=
  let r := reapStep now idleTimeout minSizePerNode a.1 e.1 e.2
  (r.1, a.2 + r.2)

/-- `RemoveIdleConnections` (pool.go): iterate over the node entries present
at entry to the call (Go ranges over the map; each iteration only touches its
own node), removing idle connections while respecting the minimum size per
node. Returns the pool and the total number removed. -/
def removeIdleConnections (p : ConnectionPool) (now idleTimeout minSizePerNode : Int) :
    ConnectionPool × Nat :=
  p.nodeConnections.foldl (reapFoldStep now idleTimeout minSizePerNode) (p, 0)

/-- `Clear` (pool.go). -/
def clear (p : ConnectionPool) : ConnectionPool :=
  { p with nodeConnections := [], nodeRoundRobinIndices := [], nodeOrder := [],
           nodeOrderIndex := 0, nodeHTTPClients := [] }

end ConnectionPool

/-! ## Client data model (source: models.go) -/

/-- `PoolConfig` (models.go). Durations are `Int`. -/
structure PoolConfig where
  minPoolSize : Int
  maxPoolSize : Int
  maxWritePoolSize : Int
  scaleUpThreshold : Int
  idleTimeout : Int
  scaleDownInterval : Int
  connectionTTL : Int
  scaleUpBatchSize : Int
  usageWindowSize : Nat
  nodeUseMultiClient : Bool
deriving DecidableEq

/-- `ConnectionStats` (models.go): per-(node, intent) counters. -/
structure ConnectionStats where
  nodeID : String
  currentConnections : Int
  activeRequests : Int
  lastScaleUp : Int
  lastScaleDown : Int
  usageHistory : List Int
  historyWindow : Nat
  lastCleanup : Int
  scaleUpEvents : Int
  scaleDownEvents : Int
deriving DecidableEq

/-- One peer entry of `orm.NodeStatusStruct`. -/
structure PeerStatus where
  url : String
  nodeID : String
  mode : String
  isLeader : Bool
  maxPool : Int
deriving DecidableEq

/-- `orm.NodeStatusStruct`: the cached cluster status. -/
structure NodeStatus where
  url : String
  nodeID : String
  mode : String
  isLeader : Bool
  maxPool : Int
  peers : List PeerStatus
deriving DecidableEq

/-- `Client` (models.go). The reaper timer and its done-channel are modelled
by two flags: whether `startCleanupTimer` ran (the timer pointer is non-nil),
and whether the `cleanupDone` channel has been closed. -/
structure Client where
  connected : Bool
  leaderConn : Option Connection
  readPool : ConnectionPool
  writePool : ConnectionPool
  poolConfig : PoolConfig
  statsPerNodeRead : List (String × ConnectionStats)
  statsPerNodeWrite : List (String × ConnectionStats)
  status : Option NodeStatus
  cleanupTimerStarted : Bool
  cleanupDoneClosed : Bool
deriving DecidableEq

/-- Go runtime panics reachable in the modelled code. -/
inductive GoPanic
  | closeOfClosedChannel
  | nilPointerDeref
deriving DecidableEq

/-- `close(ch)` on a Go channel: panics when the channel is already closed. -/
def closeChannel (alreadyClosed : Bool) : Except GoPanic Unit :=
  if alreadyClosed then .error .closeOfClosedChannel else .ok ()

namespace Client

/-- The fresh stats record built by `getOrCreateNodeStats` (scale.go). -/
def freshStats (nodeID : String) (window : Nat) (now : Int) : ConnectionStats :=
  { nodeID := nodeID, currentConnections := 0, activeRequests := 0,
    lastScaleUp := 0, lastScaleDown := 0, usageHistory := [],
    historyWindow := window, lastCleanup := now, scaleUpEvents := 0,
    scaleDownEvents := 0 }

/-- `getOrCreateNodeStats` (scale.go): look the node up in the map matching
the intent, creating and inserting a fresh record when absent. -/
def getOrCreateNodeStats (c : Client) (nodeID : String) (isWrite : Bool) (now : Int) :
    ConnectionStats × Client :=
  let m := if isWrite then c.statsPerNodeWrite else c.statsPerNodeRead
  match lookupA m nodeID with
  | some stats => (stats, c)
  | none =>
    let stats := freshStats nodeID c.poolConfig.usageWindowSize now
    if isWrite then
      (stats, { c with statsPerNodeWrite := setA c.statsPerNodeWrite nodeID stats })
    else
      (stats, { c with statsPerNodeRead := setA c.statsPerNodeRead nodeID stats })

/-- One post-cleanup stats loop of `cleanupIdleConnections` (pool.go): for
each key of the read-intent stats map, fetch (or create) the read-intent
record and overwrite its current-connection count with `newCount`, stamping
the scale-down bookkeeping fields. -/
def cleanupStatsPass (m : List (String × ConnectionStats)) (ks : List String)
    (newCount : String → Int) (window : Nat) (now : Int) :
    List (String × ConnectionStats) :=
  ks.foldl
    (fun acc nodeID =>
      let stats := (lookupA acc nodeID).getD (freshStats nodeID window now)
      setA acc nodeID
        { stats with currentConnections := newCount nodeID, lastScaleDown := now,
                     lastCleanup := now, scaleDownEvents := stats.scaleDownEvents + 1 })
    m

/-- `cleanupIdleConnections` (pool.go): when status is known, remove idle
connections from the read pool and then the write pool, both with
`minSizePerNode = PoolConfig.MinPoolSize`; when the read pool shed
connections, rewrite every read-intent stats entry with the write pool's
per-node size; when the write pool shed connections, rewrite every
read-intent stats entry with the read pool's per-node size. -/
def cleanupIdleConnections (c : Client) (now : Int) : Client :=
  match c.status with
  | none => c
  | some _ =>
    let rRead := c.readPool.removeIdleConnections now c.poolConfig.idleTimeout
        c.poolConfig.minPoolSize
    let rWrite := c.writePool.removeIdleConnections now c.poolConfig.idleTimeout
        c.poolConfig.minPoolSize
    let c1 := { c with readPool := rRead.1, writePool := rWrite.1 }
    let c2 :=
      if rRead.2 > 0 then
        let m' := cleanupStatsPass c1.statsPerNodeRead (keysA c1.statsPerNodeRead)
          (fun nodeID => (c1.writePool.sizeForNode nodeID : Int))
          c1.poolConfig.usageWindowSize now
        { c1 with statsPerNodeRead := m' }
      else c1
    if rWrite.2 > 0 then
      let m' := cleanupStatsPass c2.statsPerNodeRead (keysA c2.statsPerNodeRead)
        (fun nodeID => (c2.readPool.sizeForNode nodeID : Int))
        c2.poolConfig.usageWindowSize now
      { c2 with statsPerNodeRead := m' }
    else c2

/-- `CloseConnections` (pool.go): when the cleanup timer exists, stop it and
close the `cleanupDone` channel (a second call reaches `close` on an
already-closed channel, a Go panic, because the timer field is never reset);
then drop the leader session, clear both pools and mark disconnected. -/
def closeConnections (c : Client) : Except GoPanic Client :=
  if c.cleanupTimerStarted then
    match closeChannel c.cleanupDoneClosed with
    | .error e => .error e
    | .ok _ =>
      .ok { c with cleanupDoneClosed := true, leaderConn := none,
                   readPool := c.readPool.clear, writePool := c.writePool.clear,
                   connected := false }
  else
    .ok { c with leaderConn := none, readPool := c.readPool.clear,
                 writePool := c.writePool.clear, connected := false }

/-- `Close` (suresql.go): `CloseConnections` then mark disconnected. -/
def close (c : Client) : Except GoPanic Client :=
  match closeConnections c with
  | .error e => .error e
  | .ok c1 => .ok { c1 with connected := false }

/-- `findMaxPoolsByNodeID` (scale.go), with the cached status given (the Go
code dereferences `c.status`, which is nil-unsafe; the caller models that). -/
def findMaxPoolsByNodeID (st : NodeStatus) (cfg : PoolConfig) (nodeID : String) : Int :=
  if nodeID = st.nodeID then st.maxPool
  else
    match st.peers.find? (fun p => p.nodeID = nodeID) with
    | some p => p.maxPool
    | none => cfg.maxPoolSize

/-- `createPoolConnections` (pool.go), with the network abstracted: attempt
`count` times to create and connect a fresh session to the given node; the
oracle `connectOk i` is the token pair obtained by attempt `i`'s
`/db/connect`, or `none` when that attempt failed (the Go code logs a warning
and continues). Each created session carries its own token pair and a fresh
identity. -/
def createPoolConnections (now : Int) (url nodeID mode : String) (isLeader : Bool)
    (count : Int) (connectOk : Nat → Option TokenTable) : List Connection :=
  if count ≤ 0 then []
  else
    (List.range count.toNat).filterMap
      (fun i =>
        match connectOk i with
        | none => none
        | some tok =>
          some { url := url, token := tok, nodeID := nodeID, isLeader := isLeader,
                 mode := mode, lastUsed := now, lastRefresh := now, created := now,
                 connID := i + 1 })

/-- `scaleUpNode` (scale.go): pick the intent's pool and ceiling (reads ask
the cached status for the node's MaxPool; writes use the pools'
`maxWritePool`, read off `c.readPool`), add
`min(ScaleUpBatchSize, ceiling - current)` fresh sessions when positive, and
bump the intent's stats. Dereferences the cached status: a nil status is a
Go panic. -/
def scaleUpNode (c : Client) (conn : Connection) (isWrite : Bool) (now : Int)
    (connectOk : Nat → Option TokenTable) : Except GoPanic Client :=
  match c.status with
  | none => .error .nilPointerDeref
  | some st =>
    let maxPool := findMaxPoolsByNodeID st c.poolConfig conn.nodeID
    let maxPool := if isWrite then c.readPool.maxWritePool else maxPool
    let currentSize :=
      if isWrite then c.writePool.sizeForNode conn.nodeID
      else c.readPool.sizeForNode conn.nodeID
    let addCount := min c.poolConfig.scaleUpBatchSize (maxPool - (currentSize : Int))
    if addCount ≤ 0 then .ok c
    else
      let conns := createPoolConnections now conn.url conn.nodeID conn.mode
          conn.isLeader addCount connectOk
      if conns.length > 0 then
        let c1 :=
          if isWrite then { c with writePool := c.writePool.addBatch conns }
          else { c with readPool := c.readPool.addBatch conns }
        let gs := getOrCreateNodeStats c1 conn.nodeID isWrite now
        let stats := gs.1
        let c2 := gs.2
        let stats' := { stats with
          currentConnections := stats.currentConnections + (conns.length : Int),
          scaleUpEvents := stats.scaleUpEvents + 1 }
        if isWrite then
          .ok { c2 with statsPerNodeWrite := setA c2.statsPerNodeWrite conn.nodeID stats' }
        else
          .ok { c2 with statsPerNodeRead := setA c2.statsPerNodeRead conn.nodeID stats' }
      else .ok c

end Client

/-! ## HTTP, envelope and token layer (source: connection.go, request.go)

The network is an oracle: a `NetState` carries the stream of outcomes that
successive HTTP exchanges will observe, and a trace of the endpoints called
(every HTTP call in the source goes through `Connection.sendHttpRequest`).
-/

/-- The `data` field of a decoded `suresql.StandardResponse`. The token
endpoints need only to distinguish a JSON object with string fields (the Go
code asserts `map[string]interface{}` and extracts `token`/`refresh` via
`object.MapToStructSlow`, which yields `""` for a missing field) from any
other shape. -/
inductive DataVal
  | mapping (fields : List (String × String))
  | nonMapping
deriving DecidableEq

/-- `suresql.StandardResponse`: the `{status, message, data}` envelope. -/
structure Envelope where
  status : Int
  message : String
  data : DataVal
deriving DecidableEq

/-- An `*http.Response`: its status code, and its body as an already-decoded
envelope (`none` models a body the JSON decoder rejects). -/
structure HttpResp where
  statusCode : Int
  body : Option Envelope
deriving DecidableEq

/-- The outcome of one `http.Client.Do` call, i.e. of one
`Connection.sendHttpRequest`:
`transportErr` is a non-nil error with a nil response (the normal Go shape
for a transport failure), `respWithErr` is a non-nil error together with a
non-nil response (Go produces this shape only for redirect-policy failures),
and `success` is a nil error with a response — which is what `Do` returns for
any HTTP status, including 401. -/
inductive ExchOutcome
  | transportErr (msg : String)
  | respWithErr (msg : String) (resp : HttpResp)
  | success (resp : HttpResp)
deriving DecidableEq

/-- The network oracle: outcomes still to be served, and the endpoints called
so far. -/
structure NetState where
  stream : List ExchOutcome
  calls : List String
deriving DecidableEq

/-- Errors produced by the request layer. `goPanic` marks control points
where the Go code dereferences a nil response. -/
inductive ReqError
  | goPanic (p : GoPanic)
  | msg (s : String)
deriving DecidableEq

/-- Structural decidability of `Except` equality (used only to evaluate the
model on concrete states). -/
instance {e a : Type} [DecidableEq e] [DecidableEq a] : DecidableEq (Except e a) :=
  fun x y =>
  match x, y with
  | .ok u, .ok v =>
    if h : u = v then isTrue (by rw [h])
    else isFalse (by intro hc; cases hc; exact h rfl)
  | .error u, .error v =>
    if h : u = v then isTrue (by rw [h])
    else isFalse (by intro hc; cases hc; exact h rfl)
  | .ok _, .error _ => isFalse (by intro hc; cases hc)
  | .error _, .ok _ => isFalse (by intro hc; cases hc)

/-- `Connection.sendHttpRequest` (connection.go), network-abstracted: record
the endpoint and consume the next oracle outcome. -/
def sendHttpRequest (endpoint : String) (w : NetState) : ExchOutcome × NetState :=
  match w.stream with
  | [] => (.transportErr "no response",
           { stream := [], calls := w.calls ++ [endpoint] })
  | o :: rest => (o, { stream := rest, calls := w.calls ++ [endpoint] })

/-- `Connection.getAndCheckResponseData` (connection.go): decode the envelope
and return its `data` only when the envelope's `status` field is 200. -/
def getAndCheckResponseData (r : HttpResp) : Except ReqError DataVal :=
  match r.body with
  | none => .error (.msg "failed to decode response")
  | some env =>
    if env.status ≠ 200 then .error (.msg ("request error: " ++ env.message))
    else .ok env.data

/-- `Connection.getAndCheckToken` (connection.go). -/
def getAndCheckToken (cn : Connection) (withToken : Bool) : Except ReqError Unit :=
  if withToken ∧ cn.token.token = "" then
    .error (.msg ("authentication required but no token available for " ++ cn.nodeID))
  else .ok ()

/-- `convertDataToToken` (connection.go): the envelope data must be a mapping
and both extracted fields must be non-empty. -/
def convertDataToToken (d : DataVal) : Except ReqError TokenTable :=
  match d with
  | .nonMapping => .error (.msg "unexpected response format")
  | .mapping fields =>
    let tokenObj : TokenTable :=
      { token := (lookupA fields "token").getD "",
        refresh := (lookupA fields "refresh").getD "" }
    if tokenObj.token = "" ∨ tokenObj.refresh = "" then
      .error (.msg "token not found in response")
    else .ok tokenObj

/-- The tail of `Connection.newOrRefreshToken` (connection.go) after a
response was obtained: decode-and-check, extract the token pair, and only on
full success overwrite the connection's tokens and stamp `LastRefresh`. -/
def finishToken (cn : Connection) (now : Int) (w : NetState) (r : HttpResp) :
    Except ReqError Unit × Connection × NetState :=
  match getAndCheckResponseData r with
  | .error e => (.error e, cn, w)
  | .ok d =>
    match convertDataToToken d with
    | .error e => (.error e, cn, w)
    | .ok tokenObj =>
      (.ok (), { cn with token := tokenObj, lastRefresh := now }, w)

/-- `Connection.newOrRefreshToken` (connection.go): `refresh = true` POSTs
`/db/refresh` with the stored refresh token (failing early when there is
none); `refresh = false` POSTs `/db/connect` with the configured credentials.
In the refresh branch, a transport error leaves `resp` nil and the source
then calls `resp.Body.Close()` — a nil-pointer dereference, modelled as a
panic. -/
def newOrRefreshToken (cn : Connection) (refresh : Bool) (now : Int) (w : NetState) :
    Except ReqError Unit × Connection × NetState :=
  if refresh then
    if cn.token.refresh = "" then
      (.error (.msg "no refresh token available for connection"), cn, w)
    else
      let s := sendHttpRequest "/db/refresh" w
      match s.1 with
      | .transportErr _ => (.error (.goPanic .nilPointerDeref), cn, s.2)
      | .respWithErr m _ => (.error (.msg ("refresh request failed: " ++ m)), cn, s.2)
      | .success r => finishToken cn now s.2 r
  else
    let s := sendHttpRequest "/db/connect" w
    match s.1 with
    | .transportErr m =>
      (.error (.msg ("connect (new token) request failed: " ++ m)), cn, s.2)
    | .respWithErr m _ =>
      (.error (.msg ("connect (new token) request failed: " ++ m)), cn, s.2)
    | .success r => finishToken cn now s.2 r

/-- `Connection.tryRefreshAndRenew` (connection.go): try `/db/refresh` first;
on an error fall back to `/db/connect` (a refresh-branch panic propagates —
no fallback runs). -/
def tryRefreshAndRenew (cn : Connection) (now : Int) (w : NetState) :
    Except ReqError Unit × Connection × NetState :=
  match newOrRefreshToken cn true now w with
  | (.ok u, cn1, w1) => (.ok u, cn1, w1)
  | (.error (.goPanic p), cn1, w1) => (.error (.goPanic p), cn1, w1)
  | (.error (.msg _), cn1, w1) => newOrRefreshToken cn1 false now w1

/-- The attempt phase of `Client.sendRequestToPool` (request.go): the first
`sendHttpRequest`, and — only when it yielded a non-nil error together with a
non-nil 401 response while the call was token-bearing with auto-refresh on —
the refresh-and-single-retry. Distinguishes the outcomes the surrounding code
treats differently: a response to decode, an error returned immediately
(post-refresh failures), and an error that continues to the
fallback-to-leader join point. -/
inductive AttemptRes
  | decoded (r : HttpResp)
  | earlyErr (e : ReqError)
  | joinErr (m : String)
deriving DecidableEq

/-- The attempt phase itself (request.go, lines 62-77). Note the guard: the
refresh branch is inside `if err != nil`, so it can only fire on the
`respWithErr` shape; a plain 401 response (`success` with status 401) goes
straight to decoding. -/
def attemptPhase (cn : Connection) (endpoint : String)
    (withToken autorefresh : Bool) (now : Int) (w : NetState) :
    AttemptRes × Connection × NetState :=
  let s1 := sendHttpRequest endpoint w
  match s1.1 with
  | .success r => (.decoded r, cn, s1.2)
  | .transportErr m => (.joinErr m, cn, s1.2)
  | .respWithErr m r =>
    if autorefresh ∧ r.statusCode = 401 ∧ withToken then
      match tryRefreshAndRenew cn now s1.2 with
      | (.ok _, cn1, w1) =>
        let s2 := sendHttpRequest endpoint w1
        match s2.1 with
        | .success r2 => (.decoded r2, cn1, s2.2)
        | .transportErr _ => (.earlyErr (.goPanic .nilPointerDeref), cn1, s2.2)
        | .respWithErr m2 _ =>
          (.earlyErr (.msg ("api-call failed, after refresh success, err: " ++ m2)),
           cn1, s2.2)
      | (.error (.goPanic p), cn1, w1) => (.earlyErr (.goPanic p), cn1, w1)
      | (.error (.msg em), cn1, w1) => (.joinErr em, cn1, w1)
    else (.joinErr m, cn, s1.2)

namespace Client

/-- `NewConnection` (connection.go) as used by `sendRequestToLeader` when the
leader session is missing: empty arguments fall back to the configured server
URL, node id `"0"` and mode `"rw"`. -/
def newLeaderConnection (serverURL : String) (now : Int) : Connection :=
  { url := serverURL, token := { token := "", refresh := "" }, nodeID := "0",
    isLeader := true, mode := "rw", lastUsed := now, lastRefresh := now,
    created := now, connID := 0 }

/-- `Client.sendRequestToPool` (request.go), fuelled so that the definition
computes: the only recursion is the fallback-to-leader re-dispatch, which
passes `NO_FALLBACK` (via `sendRequestToLeader`), so depth 2 covers every
run and the fuel-0 sentinel is unreachable from `sendRequestToPool` below.
The served connection is threaded through (its token pair may have been
replaced); when the leader was used, the client's leader session is threaded
too. `serverURL` stands for `c.Config.ServerURL`. -/
def sendRequestToPoolFuel : Nat → Bool → Client → Option Connection →
    String → Bool → Bool → String → Int → NetState →
    Except ReqError DataVal × Option Connection × Client × NetState
  | 0, _, cl, _, _, _, _, _, _, w => (.error (.msg "no DB connection"), none, cl, w)
  | Nat.succ fuel, fallback, cl, ocn, endpoint, withToken, autorefresh0,
      serverURL, now, w =>
    match ocn with
    | none => (.error (.msg "no DB connection"), none, cl, w)
    | some cn =>
      let autorefresh := if ¬withToken ∧ autorefresh0 then false else autorefresh0
      match getAndCheckToken cn withToken with
      | .error e => (.error e, some cn, cl, w)
      | .ok _ =>
        match attemptPhase cn endpoint withToken autorefresh now w with
        | (.decoded r, cn1, w1) => (getAndCheckResponseData r, some cn1, cl, w1)
        | (.earlyErr e, cn1, w1) => (.error e, some cn1, cl, w1)
        | (.joinErr em, cn1, w1) =>
          if fallback ∧ cl.leaderConn ≠ some cn then
            let cl1 :=
              match cl.leaderConn with
              | some _ => cl
              | none => { cl with leaderConn := some (newLeaderConnection serverURL now) }
            let r := sendRequestToPoolFuel fuel false cl1 cl1.leaderConn endpoint
              withToken autorefresh serverURL now w1
            let cl2 := { r.2.2.1 with leaderConn := r.2.1 }
            match r.1 with
            | .error (.goPanic p) => (.error (.goPanic p), some cn1, cl2, r.2.2.2)
            | .error (.msg em2) =>
              (.error (.msg ("api-call fallback to leader failed, err:" ++ em2)),
               some cn1, cl2, r.2.2.2)
            | .ok d => (.ok d, some cn1, cl2, r.2.2.2)
          else
            (.error (.msg ("api-call failed, err: " ++ em)), some cn1, cl, w1)

/-- `Client.sendRequestToPool` (request.go), at its natural entry point. -/
def sendRequestToPool (fallback : Bool) (cl : Client) (ocn : Option Connection)
    (endpoint : String) (withToken autorefresh0 : Bool) (serverURL : String)
    (now : Int) (w : NetState) :
    Except ReqError DataVal × Option Connection × Client × NetState :=
  sendRequestToPoolFuel 2 fallback cl ocn endpoint withToken autorefresh0
    serverURL now w

end Client

/-! ## Concrete states used to evaluate the model -/

/-- A default pool configuration (defaults of models.go, durations in
seconds/minutes collapsed to small integers). -/
def demoCfg : PoolConfig :=
  { minPoolSize := 5, maxPoolSize := 10, maxWritePoolSize := 1,
    scaleUpThreshold := 10, idleTimeout := 300, scaleDownInterval := 60,
    connectionTTL := 3600, scaleUpBatchSize := 3, usageWindowSize := 100,
    nodeUseMultiClient := false }

/-- A connection of node `"n1"` with the given identity and last-used time. -/
def mkConn (id : Nat) (lastUsed : Int) : Connection :=
  { url := "http://n1", token := { token := "tk", refresh := "rf" },
    nodeID := "n1", isLeader := false, mode := "r", lastUsed := lastUsed,
    lastRefresh := 0, created := 0, connID := id }

/-- A minimal cached cluster status. -/
def demoStatus : NodeStatus :=
  { url := "http://leader", nodeID := "n0", mode := "rw", isLeader := true,
    maxPool := 10, peers := [] }

/-- A connected client whose reaper has been started (the state after
`Connect` → `InitializePool` → `startCleanupTimer`). -/
def c2Client : Client :=
  { connected := true,
    leaderConn := some (mkConn 9 0),
    readPool := { nodeConnections := [("n1", [mkConn 1 0])],
                  nodeRoundRobinIndices := [("n1", 0)], nodeOrder := ["n1"],
                  nodeOrderIndex := 0, isWritePool := false, maxPool := 10,
                  maxWritePool := 1, nodeHTTPClients := [] },
    writePool := { nodeConnections := [("n1", [mkConn 2 0])],
                   nodeRoundRobinIndices := [("n1", 0)], nodeOrder := ["n1"],
                   nodeOrderIndex := 0, isWritePool := true, maxPool := 10,
                   maxWritePool := 1, nodeHTTPClients := [] },
    poolConfig := demoCfg, statsPerNodeRead := [], statsPerNodeWrite := [],
    status := some demoStatus, cleanupTimerStarted := true,
    cleanupDoneClosed := false }

/-- A configuration with `MinPoolSize = 1` strictly below
`ScaleUpBatchSize = 3` (both are legal: `NewClient` keeps any positive
override). -/
def c3Cfg : PoolConfig :=
  { minPoolSize := 1, maxPoolSize := 10, maxWritePoolSize := 1,
    scaleUpThreshold := 10, idleTimeout := 10, scaleDownInterval := 60,
    connectionTTL := 3600, scaleUpBatchSize := 3, usageWindowSize := 100,
    nodeUseMultiClient := false }

/-- A client under `c3Cfg` whose read pool holds three idle sessions of node
`"n1"` (last used at time 0, observed at time 100 with idle timeout 10). -/
def c3Client : Client :=
  { connected := true, leaderConn := none,
    readPool := { nodeConnections := [("n1", [mkConn 1 0, mkConn 2 0, mkConn 3 0])],
                  nodeRoundRobinIndices := [("n1", 0)], nodeOrder := ["n1"],
                  nodeOrderIndex := 0, isWritePool := false, maxPool := 10,
                  maxWritePool := 1, nodeHTTPClients := [] },
    writePool := ConnectionPool.new true 10 1,
    poolConfig := c3Cfg, statsPerNodeRead := [], statsPerNodeWrite := [],
    status := some demoStatus, cleanupTimerStarted := true,
    cleanupDoneClosed := false }

/-- A token-bearing peer connection for the auto-refresh scenario. -/
def c1Conn : Connection :=
  { url := "http://peer1", token := { token := "tok", refresh := "ref" },
    nodeID := "n1", isLeader := false, mode := "r", lastUsed := 0,
    lastRefresh := 0, created := 0, connID := 1 }

/-- A client for the auto-refresh scenario. -/
def c1Client : Client :=
  { c2Client with leaderConn := some (Client.newLeaderConnection "http://leader" 0) }

/-- The network for the auto-refresh scenario: the server answers the request
with a 401 response carrying a 401 envelope, with no transport-level error —
exactly what `http.Client.Do` produces on an expired token. -/
def c1Net : NetState :=
  { stream := [.success { statusCode := 401,
                          body := some { status := 401, message := "unauthorized",
                                         data := .nonMapping } }],
    calls := [] }

/-- The total connection count of a bucket map. -/
def sumLens (m : List (String × List Connection)) : Nat :=
  (m.map (fun e => e.2.length)).sum

/-- The network for the C8 witness: the refresh endpoint answers 200 with a
mapping that lacks the `refresh` field. -/
def c8Env : Envelope :=
  { status := 200, message := "OK", data := .mapping [("token", "tk")] }

/-- The oracle serving `c8Env`. -/
def c8Net : NetState :=
  { stream := [.success { statusCode := 200, body := some c8Env }], calls := [] }

/-- The bucket for the C6 witness: one recently used session between two
idle ones (observed at time 100 with idle timeout 10). -/
def c6Bucket : List Connection := [mkConn 1 0, mkConn 2 95, mkConn 3 0]

/-- A pool holding `c6Bucket` at node `"n1"`. -/
def c6Pool : ConnectionPool :=
  { nodeConnections := [("n1", c6Bucket)],
    nodeRoundRobinIndices := [("n1", 1)], nodeOrder := ["n1"],
    nodeOrderIndex := 0, isWritePool := false, maxPool := 10,
    maxWritePool := 1, nodeHTTPClients := [] }

/-- Stats for the C9 witness. -/
def c9Stats : ConnectionStats := Client.freshStats "n1" 100 0

/-- A client for C9 under `c3Cfg` (`MinPoolSize = 1`): both pools hold idle
sessions of node `"n1"`, and a read-intent stats entry exists for it. -/
def c9Client : Client :=
  { connected := true, leaderConn := none,
    readPool := { nodeConnections := [("n1", [mkConn 1 0, mkConn 2 0, mkConn 3 0])],
                  nodeRoundRobinIndices := [("n1", 0)], nodeOrder := ["n1"],
                  nodeOrderIndex := 0, isWritePool := false, maxPool := 10,
                  maxWritePool := 1, nodeHTTPClients := [] },
    writePool := { nodeConnections := [("n1", [mkConn 4 0, mkConn 5 0])],
                   nodeRoundRobinIndices := [("n1", 0)], nodeOrder := ["n1"],
                   nodeOrderIndex := 0, isWritePool := true, maxPool := 10,
                   maxWritePool := 1, nodeHTTPClients := [] },
    poolConfig := c3Cfg, statsPerNodeRead := [("n1", c9Stats)],
    statsPerNodeWrite := [], status := some demoStatus,
    cleanupTimerStarted := true, cleanupDoneClosed := false }

/-- The outcome the spec's `take-next()` contract prescribes when the first
non-empty bucket sits at scan offset `j` from the node cursor: return the
session at that node's per-node cursor with its last-used time refreshed,
advance the per-node cursor modulo the bucket size, and advance the node
cursor just past the served node. -/
def c4Served (now : Int) (p : ConnectionPool) (j : Nat) :
    Connection × ConnectionPool :=
  let n := p.nodeOrder.length
  let nodeIdx := (p.nodeOrderIndex + j) % n
  let nodeID := p.nodeOrder.getD nodeIdx ""
  let nodeConns := ConnectionPool.bucketOf p nodeID
  let connIdx := ConnectionPool.rrOf p nodeID
  let cn' := { nodeConns.getD connIdx dummyConn with lastUsed := now }
  (cn',
   { p with
       nodeConnections := setA p.nodeConnections nodeID (nodeConns.set connIdx cn'),
       nodeRoundRobinIndices :=
         setA p.nodeRoundRobinIndices nodeID ((connIdx + 1) % nodeConns.length),
       nodeOrderIndex := (nodeIdx + 1) % n })

/-- A pool whose scan must skip the first node (empty bucket) and serve the
second, from its cursor position 1. -/
def c4Pool : ConnectionPool :=
  { nodeConnections := [("a", []), ("b", [mkConn 1 0, mkConn 2 0])],
    nodeRoundRobinIndices := [("a", 0), ("b", 1)],
    nodeOrder := ["a", "b"], nodeOrderIndex := 0, isWritePool := false,
    maxPool := 10, maxWritePool := 1, nodeHTTPClients := [] }

/-! ## Association-list lemmas -/

theorem lookupA_setA_self {α : Type} (m : List (String × α)) (k : String) (v : α) :
    lookupA (setA m k v) k = some v := by
  induction m with
  | nil => simp [lookupA, setA]
  | cons e rest ih =>
    obtain ⟨k1, v1⟩ := e
    by_cases h : k1 = k <;> simp [lookupA, setA, h, ih]

theorem lookupA_setA_ne {α : Type} (m : List (String × α)) {k k' : String} (v : α)
    (h : k' ≠ k) : lookupA (setA m k v) k' = lookupA m k' := by
  induction m with
  | nil => simp [lookupA, setA, Ne.symm h]
  | cons e rest ih =>
    obtain ⟨k1, v1⟩ := e
    by_cases he : k1 = k
    · subst he
      simp [lookupA, setA, Ne.symm h]
    · simp [lookupA, setA, he, ih]

theorem lookupA_eraseA_ne {α : Type} (m : List (String × α)) {k k' : String}
    (h : k' ≠ k) : lookupA (eraseA m k) k' = lookupA m k' := by
  induction m with
  | nil => simp [lookupA, eraseA]
  | cons e rest ih =>
    obtain ⟨k1, v1⟩ := e
    by_cases he : k1 = k
    · subst he
      simp [lookupA, eraseA, Ne.symm h]
    · simp [lookupA, eraseA, he, ih]

theorem lookupA_eq_none_iff {α : Type} (m : List (String × α)) (k : String) :
    lookupA m k = none ↔ k ∉ keysA m := by
  induction m with
  | nil => simp [lookupA, keysA]
  | cons e rest ih =>
    obtain ⟨k1, v1⟩ := e
    by_cases he : k1 = k
    · subst he
      simp [lookupA, keysA]
    · simp [lookupA, keysA, he, ih, Ne.symm he]

theorem keysA_setA_of_isSome {α : Type} (m : List (String × α)) (k : String) (v : α)
    (h : (lookupA m k).isSome) : keysA (setA m k v) = keysA m := by
  induction m with
  | nil => simp [lookupA] at h
  | cons e rest ih =>
    obtain ⟨k1, v1⟩ := e
    by_cases he : k1 = k
    · subst he
      simp [setA, keysA]
    · simp [lookupA, he] at h
      have ih' := ih h
      simp only [keysA] at ih'
      simp [setA, keysA, he, ih']

theorem keysA_setA_of_none {α : Type} (m : List (String × α)) (k : String) (v : α)
    (h : lookupA m k = none) : keysA (setA m k v) = keysA m ++ [k] := by
  induction m with
  | nil => simp [setA, keysA]
  | cons e rest ih =>
    obtain ⟨k1, v1⟩ := e
    by_cases he : k1 = k
    · subst he
      simp [lookupA] at h
    · simp [lookupA, he] at h
      have ih' := ih h
      simp only [keysA] at ih'
      simp [setA, keysA, he, ih']

theorem sumLens_setA_none (m : List (String × List Connection)) (k : String)
    (v : List Connection) (h : lookupA m k = none) :
    sumLens (setA m k v) = sumLens m + v.length := by
  induction m with
  | nil => simp [setA, sumLens]
  | cons e rest ih =>
    obtain ⟨k1, v1⟩ := e
    by_cases he : k1 = k
    · subst he
      simp [lookupA] at h
    · simp [lookupA, he] at h
      simp [setA, sumLens, he] at ih ⊢
      have := ih h
      omega

theorem sumLens_setA_some (m : List (String × List Connection)) (k : String)
    (v old : List Connection) (h : lookupA m k = some old) :
    sumLens (setA m k v) + old.length = sumLens m + v.length := by
  induction m with
  | nil => simp [lookupA] at h
  | cons e rest ih =>
    obtain ⟨k1, v1⟩ := e
    by_cases he : k1 = k
    · subst he
      simp [lookupA] at h
      simp [setA, sumLens, h]
      omega
    · simp [lookupA, he] at h
      simp [setA, sumLens, he] at ih ⊢
      have := ih h
      omega

theorem mem_keysA_of_lookupA_isSome {α : Type} {m : List (String × α)} {k : String}
    (h : (lookupA m k).isSome) : k ∈ keysA m := by
  by_contra hk
  rw [← lookupA_eq_none_iff] at hk
  simp [hk] at h

theorem lookupA_isSome_iff_mem_keysA {α : Type} (m : List (String × α)) (k : String) :
    (lookupA m k).isSome = true ↔ k ∈ keysA m := by
  constructor
  · intro h
    exact mem_keysA_of_lookupA_isSome h
  · intro h
    by_contra hs
    have : lookupA m k = none := by
      cases hl : lookupA m k with
      | none => rfl
      | some v => simp [hl] at hs
    exact (lookupA_eq_none_iff m k).mp this h

/-! ## AddBatch lemmas -/

theorem groupByNode_sumLens_aux (S : List Connection)
    (acc : List (String × List Connection)) :
    sumLens (S.foldl
      (fun m cn => setA m cn.nodeID (((lookupA m cn.nodeID).getD []) ++ [cn])) acc)
      = sumLens acc + S.length := by
  induction S generalizing acc with
  | nil => simp
  | cons c S' ih =>
    simp only [List.foldl_cons, List.length_cons]
    rw [ih]
    have hstep : sumLens (setA acc c.nodeID
        (((lookupA acc c.nodeID).getD []) ++ [c])) = sumLens acc + 1 := by
      cases hl : lookupA acc c.nodeID with
      | none =>
        rw [sumLens_setA_none _ _ _ hl]
        simp
      | some old =>
        have := sumLens_setA_some acc c.nodeID (old ++ [c]) old hl
        simp [hl] at this ⊢
        omega
    rw [hstep]
    omega

theorem groupByNode_sumLens (S : List Connection) :
    sumLens (ConnectionPool.groupByNode S) = S.length := by
  have := groupByNode_sumLens_aux S []
  simpa [ConnectionPool.groupByNode, sumLens] using this

/-- The effect of one `AddBatch` group on the pool: the size grows by the
group's length, and the key/order bookkeeping invariants are preserved. -/
theorem addGroupStep_props (q : ConnectionPool) (e : String × List Connection)
    (hkeys : (keysA q.nodeConnections).Nodup)
    (horder : q.nodeOrder = keysA q.nodeConnections) :
    (q.addGroupStep e).size = q.size + e.2.length ∧
    (keysA (q.addGroupStep e).nodeConnections).Nodup ∧
    (q.addGroupStep e).nodeOrder = keysA (q.addGroupStep e).nodeConnections := by
  unfold ConnectionPool.addGroupStep
  cases hl : lookupA q.nodeConnections e.1 with
  | some old =>
    simp only [hl, Option.isSome_some, if_true, Option.getD_some]
    have hsize := sumLens_setA_some q.nodeConnections e.1 (old ++ e.2) old hl
    refine ⟨?_, ?_, ?_⟩
    · show sumLens (setA q.nodeConnections e.1 (old ++ e.2)) = sumLens q.nodeConnections + e.2.length
      simp at hsize
      omega
    · rw [keysA_setA_of_isSome _ _ _ (by simp [hl])]
      exact hkeys
    · rw [keysA_setA_of_isSome _ _ _ (by simp [hl])]
      exact horder
  | none =>
    simp only [hl, Option.isSome_none, Bool.false_eq_true, if_false]
    have hl1 : lookupA (setA q.nodeConnections e.1 []) e.1 = some [] :=
      lookupA_setA_self _ _ _
    simp only [hl1, Option.getD_some, List.nil_append]
    have hsize0 := sumLens_setA_none q.nodeConnections e.1 [] hl
    have hsize1 := sumLens_setA_some (setA q.nodeConnections e.1 []) e.1 e.2 [] hl1
    have hkeys0 := keysA_setA_of_none q.nodeConnections e.1 [] hl
    have hkeys1 := keysA_setA_of_isSome (setA q.nodeConnections e.1 []) e.1 e.2
      (by simp [hl1])
    refine ⟨?_, ?_, ?_⟩
    · show sumLens (setA (setA q.nodeConnections e.1 []) e.1 e.2)
        = sumLens q.nodeConnections + e.2.length
      simp at hsize0 hsize1
      omega
    · rw [hkeys1, hkeys0]
      have hnm : e.1 ∉ keysA q.nodeConnections := (lookupA_eq_none_iff _ _).mp hl
      simp [List.nodup_append, hkeys, hnm]
    · show q.nodeOrder ++ [e.1] = keysA (setA (setA q.nodeConnections e.1 []) e.1 e.2)
      rw [hkeys1, hkeys0, horder]

theorem addBatch_fold_props (gs : List (String × List Connection))
    (q : ConnectionPool)
    (hkeys : (keysA q.nodeConnections).Nodup)
    (horder : q.nodeOrder = keysA q.nodeConnections) :
    (gs.foldl ConnectionPool.addGroupStep q).size = q.size + sumLens gs ∧
    (keysA (gs.foldl ConnectionPool.addGroupStep q).nodeConnections).Nodup ∧
    (gs.foldl ConnectionPool.addGroupStep q).nodeOrder
      = keysA (gs.foldl ConnectionPool.addGroupStep q).nodeConnections := by
  induction gs generalizing q with
  | nil => exact ⟨by simp [sumLens], hkeys, horder⟩
  | cons g gs' ih =>
    obtain ⟨h1, h2, h3⟩ := addGroupStep_props q g hkeys horder
    obtain ⟨i1, i2, i3⟩ := ih (q.addGroupStep g) h2 h3
    refine ⟨?_, i2, i3⟩
    simp only [List.foldl_cons] at i1 ⊢
    rw [i1, h1]
    simp [sumLens]
    omega

/-! ## Request-layer lemmas -/

theorem finishToken_error_conn (cn : Connection) (now : Int) (w : NetState)
    (r : HttpResp) (e : ReqError) (h : (finishToken cn now w r).1 = .error e) :
    (finishToken cn now w r).2.1 = cn := by
  unfold finishToken at h ⊢
  cases hg : getAndCheckResponseData r with
  | error e1 => simp [hg]
  | ok d =>
    cases hc : convertDataToToken d with
    | error e2 => simp [hg, hc]
    | ok t => simp [hg, hc] at h

theorem newOrRefreshToken_error_conn (cn : Connection) (refresh : Bool) (now : Int)
    (w : NetState) (e : ReqError)
    (h : (newOrRefreshToken cn refresh now w).1 = .error e) :
    (newOrRefreshToken cn refresh now w).2.1 = cn := by
  unfold newOrRefreshToken at h ⊢
  by_cases hb : refresh = true
  · simp only [hb, if_true] at h ⊢
    by_cases hrf : cn.token.refresh = ""
    · simp [hrf]
    · simp only [hrf, if_false] at h ⊢
      cases ho : (sendHttpRequest "/db/refresh" w).1 with
      | transportErr m => simp [ho]
      | respWithErr m r => simp [ho]
      | success r =>
        simp only [ho] at h ⊢
        exact finishToken_error_conn _ _ _ _ e h
  · simp only [Bool.not_eq_true] at hb
    simp only [hb, Bool.false_eq_true, if_false] at h ⊢
    cases ho : (sendHttpRequest "/db/connect" w).1 with
    | transportErr m => simp [ho]
    | respWithErr m r => simp [ho]
    | success r =>
      simp only [ho] at h ⊢
      exact finishToken_error_conn _ _ _ _ e h

theorem removeFirst_eq_none_of_not_mem (B : List Connection) (cn : Connection)
    (h : cn ∉ B) : ConnectionPool.removeFirst B cn = none := by
  induction B with
  | nil => rfl
  | cons c rest ih =>
    simp only [List.mem_cons, not_or] at h
    have hc : ¬c = cn := fun hc => h.1 hc.symm
    simp [ConnectionPool.removeFirst, hc, ih h.2]

/-! ## Claims -/

/-- C1. The claim: on a transport-level success that returns HTTP 401,
with auto-refresh enabled on a token-bearing call, the dispatcher refreshes
and retries once. The code does not: the refresh branch of
`sendRequestToPool` (request.go line 67) sits inside `if err != nil`, and
`http.Client.Do` returns a nil error for a 401 response, so the dispatcher
decodes the envelope and fails without ever calling `/db/refresh`. This run
serves the 401 response with no transport error: exactly one HTTP call is
made, `/db/refresh` is never called, the connection keeps its token, and the
caller sees the server error. -/
theorem c1_transport_success_401_skips_refresh :
    (Client.sendRequestToPool false c1Client (some c1Conn) "/db/api/query"
        true true "http://leader" 5 c1Net).2.2.2.calls = ["/db/api/query"] ∧
    "/db/refresh" ∉ (Client.sendRequestToPool false c1Client (some c1Conn)
        "/db/api/query" true true "http://leader" 5 c1Net).2.2.2.calls ∧
    (Client.sendRequestToPool false c1Client (some c1Conn) "/db/api/query"
        true true "http://leader" 5 c1Net).1 =
      .error (.msg "request error: unauthorized") ∧
    (Client.sendRequestToPool false c1Client (some c1Conn) "/db/api/query"
        true true "http://leader" 5 c1Net).2.1 = some c1Conn := by
  refine ⟨by decide, by decide, by decide, by decide⟩

/-- C2. The claim: a second `Close` after a completed close is a safe no-op.
It is not: `CloseConnections` closes the `cleanupDone` channel whenever
`cleanupTimer` is non-nil but never resets the timer field, so the second
call closes an already-closed channel — a Go runtime panic — on any client
whose reaper was started (the normal state after `Connect`). -/
theorem c2_second_close_panics :
    ∃ c1, Client.close c2Client = .ok c1 ∧
      Client.close c1 = .error GoPanic.closeOfClosedChannel :=
  ⟨_, rfl, rfl⟩

/-- C3. The claim: the periodic reap passes
`min-per-node = ScaleUpBatchSize`. The code passes `PoolConfig.MinPoolSize`
(pool.go lines 496-499). Under `c3Cfg` (`MinPoolSize = 1`,
`ScaleUpBatchSize = 3`), a node holding 3 idle sessions is reaped down to 1
session — strictly below `ScaleUpBatchSize`, which the claim says is never
violated. -/
theorem c3_cleanup_reaps_below_scale_up_batch :
    (Client.cleanupIdleConnections c3Client 100).readPool.sizeForNode "n1" = 1 ∧
    ((Client.cleanupIdleConnections c3Client 100).readPool.sizeForNode "n1" : Int)
        < c3Client.poolConfig.scaleUpBatchSize ∧
    ((Client.cleanupIdleConnections c3Client 100).readPool.sizeForNode "n1" : Int)
        = c3Client.poolConfig.minPoolSize := by
  refine ⟨?_, ?_, ?_⟩ <;> decide

/-- C8. Token extraction from an envelope's data succeeds exactly when the
data is a mapping whose `token` and `refresh` fields are present and
non-empty (`object.MapToStructSlow` yields `""` for an absent field);
otherwise `convertDataToToken` fails, and on any failing path
`newOrRefreshToken` leaves the connection's stored token pair and
last-refresh time unchanged. -/
theorem c8_token_extraction_exact :
    (∀ d : DataVal,
      ((convertDataToToken d).isOk = true ↔
        ∃ fields, d = DataVal.mapping fields ∧
          (lookupA fields "token").getD "" ≠ "" ∧
          (lookupA fields "refresh").getD "" ≠ "")) ∧
    (∀ (cn : Connection) (refresh : Bool) (now : Int) (w : NetState) (e : ReqError),
      (newOrRefreshToken cn refresh now w).1 = .error e →
      (newOrRefreshToken cn refresh now w).2.1.token = cn.token ∧
      (newOrRefreshToken cn refresh now w).2.1.lastRefresh = cn.lastRefresh) := by
  constructor
  · intro d
    cases d with
    | nonMapping => simp [convertDataToToken, Except.isOk, Except.toBool]
    | mapping fields =>
      by_cases ht : (lookupA fields "token").getD "" = ""
      · simp [convertDataToToken, ht, Except.isOk, Except.toBool]
      · by_cases hr : (lookupA fields "refresh").getD "" = ""
        · simp [convertDataToToken, ht, hr, Except.isOk, Except.toBool]
        · simp [convertDataToToken, ht, hr, Except.isOk, Except.toBool]
  · intro cn refresh now w e h
    rw [newOrRefreshToken_error_conn cn refresh now w e h]
    exact ⟨rfl, rfl⟩

/-- C8 witness: a well-formed mapping extracts, and on a refresh attempt that
yields a 200 envelope with malformed token data the connection is unchanged. -/
theorem c8_witness :
    (convertDataToToken (DataVal.mapping [("token", "tk"), ("refresh", "rf")])).isOk
        = true ∧
    (newOrRefreshToken c1Conn true 7 c8Net).2.1.token = c1Conn.token :=
  ⟨(c8_token_extraction_exact.1 _).mpr
      ⟨[("token", "tk"), ("refresh", "rf")], rfl, by decide, by decide⟩,
   (c8_token_extraction_exact.2 c1Conn true 7 c8Net
      (.msg "token not found in response") (by decide)).1⟩

/-- C10. `Remove` on a connection whose node has no bucket, or whose bucket
does not contain that exact connection (pointer equality), returns `false`
and leaves the entire pool unchanged. -/
theorem c10_remove_absent_is_noop (p : ConnectionPool) (cn : Connection)
    (h : cn ∉ p.bucketOf cn.nodeID) : p.remove cn = (false, p) := by
  cases hl : lookupA p.nodeConnections cn.nodeID with
  | none => simp [ConnectionPool.remove, hl]
  | some B =>
    have hmem : cn ∉ B := by
      simpa [ConnectionPool.bucketOf, hl] using h
    simp [ConnectionPool.remove, hl, removeFirst_eq_none_of_not_mem B cn hmem]

/-- C10 witness: removing a connection absent from its node's bucket of a
concrete pool returns `false` and the pool itself. -/
theorem c10_witness :
    c2Client.readPool.remove (mkConn 5 0) = (false, c2Client.readPool) :=
  c10_remove_absent_is_noop c2Client.readPool (mkConn 5 0) (by decide)

/-- C7. `add-batch(S)` increases `pool.size()` by exactly `|S|`, and
afterwards every node id appears at most once in the ordered node list. The
hypotheses are the pool's own structural invariants (Go map keys are unique;
`nodeOrder` lists exactly the mapping's keys, in insertion order). -/
theorem c7_addBatch_size_and_order (p : ConnectionPool) (S : List Connection)
    (hkeys : (keysA p.nodeConnections).Nodup)
    (horder : p.nodeOrder = keysA p.nodeConnections) :
    (p.addBatch S).size = p.size + S.length ∧
    (p.addBatch S).nodeOrder.Nodup := by
  by_cases hemp : S.isEmpty = true
  · have hnil : S = [] := List.isEmpty_iff.mp hemp
    subst hnil
    refine ⟨by simp [ConnectionPool.addBatch], ?_⟩
    show p.nodeOrder.Nodup
    rw [horder]
    exact hkeys
  · obtain ⟨h1, h2, h3⟩ := addBatch_fold_props (ConnectionPool.groupByNode S) p hkeys horder
    unfold ConnectionPool.addBatch
    rw [if_neg hemp]
    refine ⟨?_, ?_⟩
    · rw [h1, groupByNode_sumLens]
    · rw [h3]
      exact h2

/-- C7 witness: adding a two-node batch to a concrete one-node pool grows the
size from 1 to 3 and keeps the node order duplicate-free. -/
theorem c7_witness :
    (c2Client.readPool.addBatch
        [mkConn 7 0, { mkConn 8 0 with nodeID := "n2" }]).size
      = c2Client.readPool.size + 2 ∧
    (c2Client.readPool.addBatch
        [mkConn 7 0, { mkConn 8 0 with nodeID := "n2" }]).nodeOrder.Nodup :=
  c7_addBatch_size_and_order c2Client.readPool
    [mkConn 7 0, { mkConn 8 0 with nodeID := "n2" }] (by decide) (by decide)

/-! ## Scale-up lemmas -/

theorem groupByNode_homog_aux (S : List Connection) (nd : String)
    (pre : List Connection) (h : ∀ c ∈ S, c.nodeID = nd) :
    S.foldl
      (fun m cn => setA m cn.nodeID (((lookupA m cn.nodeID).getD []) ++ [cn]))
      [(nd, pre)] = [(nd, pre ++ S)] := by
  induction S generalizing pre with
  | nil => simp
  | cons c S' ih =>
    have hc : c.nodeID = nd := h c (by simp)
    have hrest : ∀ x ∈ S', x.nodeID = nd := fun x hx => h x (by simp [hx])
    have hstep : setA [(nd, pre)] c.nodeID
        (((lookupA [(nd, pre)] c.nodeID).getD []) ++ [c]) = [(nd, pre ++ [c])] := by
      simp [hc, lookupA, setA]
    simp only [List.foldl_cons, hstep]
    rw [ih (pre ++ [c]) hrest]
    simp

/-- A batch whose members all target one node forms a single group. -/
theorem groupByNode_homog (S : List Connection) (nd : String) (cn : Connection)
    (rest : List Connection) (hS : S = cn :: rest) (h : ∀ c ∈ S, c.nodeID = nd) :
    ConnectionPool.groupByNode S = [(nd, S)] := by
  subst hS
  have hc : cn.nodeID = nd := h cn (by simp)
  have hrest : ∀ x ∈ rest, x.nodeID = nd := fun x hx => h x (by simp [hx])
  have hstep : setA ([] : List (String × List Connection)) cn.nodeID
      (((lookupA ([] : List (String × List Connection)) cn.nodeID).getD []) ++ [cn])
        = [(nd, [cn])] := by
    simp [hc, lookupA, setA]
  unfold ConnectionPool.groupByNode
  simp only [List.foldl_cons, hstep]
  rw [groupByNode_homog_aux rest nd [cn] hrest]
  simp

/-- Adding a single-node batch grows that node's bucket by the batch length. -/
theorem sizeForNode_addBatch_homog (p : ConnectionPool) (S : List Connection)
    (nd : String) (h : ∀ c ∈ S, c.nodeID = nd) :
    (p.addBatch S).sizeForNode nd = p.sizeForNode nd + S.length := by
  cases S with
  | nil => simp [ConnectionPool.addBatch]
  | cons cn rest =>
    unfold ConnectionPool.addBatch
    rw [groupByNode_homog (cn :: rest) nd cn rest rfl h]
    simp only [List.isEmpty_cons, Bool.false_eq_true, if_false, List.foldl_cons,
      List.foldl_nil]
    unfold ConnectionPool.addGroupStep
    cases hl : lookupA p.nodeConnections nd with
    | some old =>
      simp only [hl, Option.isSome_some, if_true, Option.getD_some]
      simp [ConnectionPool.sizeForNode, lookupA_setA_self, hl]
    | none =>
      simp only [hl, Option.isSome_none, Bool.false_eq_true, if_false]
      have hl1 : lookupA (setA p.nodeConnections nd []) nd = some [] :=
        lookupA_setA_self _ _ _
      simp only [hl1, Option.getD_some, List.nil_append]
      simp [ConnectionPool.sizeForNode, lookupA_setA_self, hl]

theorem createPoolConnections_length_le (now : Int) (url nd mode : String)
    (leader : Bool) (count : Int) (connectOk : Nat → Option TokenTable) :
    (Client.createPoolConnections now url nd mode leader count connectOk).length
      ≤ count.toNat := by
  unfold Client.createPoolConnections
  by_cases hc : count ≤ 0
  · simp [hc]
  · simp only [hc, if_false]
    calc (List.filterMap _ (List.range count.toNat)).length
        ≤ (List.range count.toNat).length := List.length_filterMap_le _ _
      _ = count.toNat := List.length_range _

theorem createPoolConnections_nodeID (now : Int) (url nd mode : String)
    (leader : Bool) (count : Int) (connectOk : Nat → Option TokenTable) :
    ∀ c ∈ Client.createPoolConnections now url nd mode leader count connectOk,
      c.nodeID = nd := by
  unfold Client.createPoolConnections
  by_cases hc : count ≤ 0
  · simp [hc]
  · simp only [hc, if_false]
    intro c hm
    obtain ⟨i, _, hf⟩ := List.mem_filterMap.mp hm
    cases ho : connectOk i with
    | none => simp [ho] at hf
    | some t =>
      simp only [ho] at hf
      cases hf
      rfl

/-- `getOrCreateNodeStats` touches only the stats maps, never the pools. -/
theorem getOrCreateNodeStats_pools (c : Client) (nodeID : String) (isWrite : Bool)
    (now : Int) :
    (Client.getOrCreateNodeStats c nodeID isWrite now).2.writePool = c.writePool ∧
    (Client.getOrCreateNodeStats c nodeID isWrite now).2.readPool = c.readPool := by
  unfold Client.getOrCreateNodeStats
  cases isWrite <;> dsimp only <;> split <;> simp

/-- C5. Scale-up for write intent computes
`add = min(ScaleUpBatchSize, MaxWritePoolSize - current-write-size)`, adds
nothing when that is not positive, and therefore never pushes a node's write
pool above `MaxWritePoolSize`. `hmax` is the construction invariant of
`NewClient`: both pools carry `maxWritePool = PoolConfig.MaxWritePoolSize`
(the source reads the ceiling off `c.readPool.maxWritePool`). -/
theorem c5_write_scale_up_bounded (c : Client) (conn : Connection) (now : Int)
    (connectOk : Nat → Option TokenTable)
    (hst : c.status.isSome = true)
    (hmax : c.readPool.maxWritePool = c.poolConfig.maxWritePoolSize) :
    ∃ c', Client.scaleUpNode c conn true now connectOk = .ok c' ∧
      (min c.poolConfig.scaleUpBatchSize
          (c.poolConfig.maxWritePoolSize
            - (c.writePool.sizeForNode conn.nodeID : Int)) ≤ 0 → c' = c) ∧
      ((c.writePool.sizeForNode conn.nodeID : Int) ≤ c.poolConfig.maxWritePoolSize →
        (c'.writePool.sizeForNode conn.nodeID : Int) ≤ c.poolConfig.maxWritePoolSize) := by
  cases hs : c.status with
  | none => rw [hs] at hst; simp at hst
  | some st =>
    unfold Client.scaleUpNode
    rw [hs]
    dsimp only
    rw [hmax]
    simp only [reduceIte]
    by_cases hle : min c.poolConfig.scaleUpBatchSize
        (c.poolConfig.maxWritePoolSize
          - (c.writePool.sizeForNode conn.nodeID : Int)) ≤ 0
    · rw [if_pos hle]
      exact ⟨c, rfl, fun _ => rfl, fun h => h⟩
    · rw [if_neg hle]
      have hpos : 0 < min c.poolConfig.scaleUpBatchSize
          (c.poolConfig.maxWritePoolSize
            - (c.writePool.sizeForNode conn.nodeID : Int)) := lt_of_not_ge hle
      by_cases hlz : (Client.createPoolConnections now conn.url conn.nodeID conn.mode
          conn.isLeader
          (min c.poolConfig.scaleUpBatchSize
            (c.poolConfig.maxWritePoolSize
              - (c.writePool.sizeForNode conn.nodeID : Int))) connectOk).length > 0
      · rw [if_pos hlz]
        refine ⟨_, rfl, fun habs => absurd habs hle, fun _ => ?_⟩
        have hnd := createPoolConnections_nodeID now conn.url conn.nodeID conn.mode
          conn.isLeader
          (min c.poolConfig.scaleUpBatchSize
            (c.poolConfig.maxWritePoolSize
              - (c.writePool.sizeForNode conn.nodeID : Int))) connectOk
        have hlen := createPoolConnections_length_le now conn.url conn.nodeID conn.mode
          conn.isLeader
          (min c.poolConfig.scaleUpBatchSize
            (c.poolConfig.maxWritePoolSize
              - (c.writePool.sizeForNode conn.nodeID : Int))) connectOk
        dsimp only
        rw [(getOrCreateNodeStats_pools _ _ _ _).1]
        dsimp only
        rw [sizeForNode_addBatch_homog c.writePool _ conn.nodeID hnd]
        have h2 : ((Client.createPoolConnections now conn.url conn.nodeID conn.mode
            conn.isLeader
            (min c.poolConfig.scaleUpBatchSize
              (c.poolConfig.maxWritePoolSize
                - (c.writePool.sizeForNode conn.nodeID : Int))) connectOk).length : Int)
            ≤ min c.poolConfig.scaleUpBatchSize
              (c.poolConfig.maxWritePoolSize
                - (c.writePool.sizeForNode conn.nodeID : Int)) := by
          have ht := Int.toNat_of_nonneg (le_of_lt hpos)
          have hc := (Nat.cast_le (α := Int)).mpr hlen
          omega
        have h3 := le_trans h2 (min_le_right c.poolConfig.scaleUpBatchSize
          (c.poolConfig.maxWritePoolSize
            - (c.writePool.sizeForNode conn.nodeID : Int)))
        push_cast
        omega
      · rw [if_neg hlz]
        exact ⟨c, rfl, fun _ => rfl, fun h => h⟩

/-- C5 witness: a write-intent scale-up on a concrete client whose leader
node already holds `MaxWritePoolSize = 1` write session adds nothing. -/
theorem c5_witness :
    ∃ c', Client.scaleUpNode c2Client (mkConn 1 0) true 50
        (fun _ => some { token := "t2", refresh := "r2" }) = .ok c' ∧
      ((c'.writePool.sizeForNode "n1" : Int) ≤ c2Client.poolConfig.maxWritePoolSize) := by
  obtain ⟨c', h1, _, h3⟩ := c5_write_scale_up_bounded c2Client (mkConn 1 0) 50
    (fun _ => some { token := "t2", refresh := "r2" }) (by decide) (by decide)
  exact ⟨c', h1, h3 (by decide)⟩

/-! ## Reap lemmas -/

theorem keysA_eraseA {α : Type} (m : List (String × α)) (k : String) :
    keysA (eraseA m k) = (keysA m).erase k := by
  induction m with
  | nil => rfl
  | cons e rest ih =>
    obtain ⟨k1, v1⟩ := e
    by_cases he : k1 = k
    · subst he
      simp [eraseA, keysA, List.erase_cons]
    · have ih' := ih
      simp only [keysA] at ih'
      simp [eraseA, keysA, List.erase_cons, he, ih']

theorem nodup_keysA_setA {α : Type} (m : List (String × α)) (k : String) (v : α)
    (h : (keysA m).Nodup) : (keysA (setA m k v)).Nodup := by
  cases hl : lookupA m k with
  | some w => rw [keysA_setA_of_isSome _ _ _ (by simp [hl])]; exact h
  | none =>
    rw [keysA_setA_of_none _ _ _ hl]
    have hnm : k ∉ keysA m := (lookupA_eq_none_iff _ _).mp hl
    simp [List.nodup_append, h, hnm]

theorem lookupA_eraseA_self_of_nodup {α : Type} (m : List (String × α)) (k : String)
    (h : (keysA m).Nodup) : lookupA (eraseA m k) k = none := by
  induction m with
  | nil => rfl
  | cons e rest ih =>
    obtain ⟨k1, v1⟩ := e
    simp only [keysA, List.map_cons, List.nodup_cons] at h
    by_cases he : k1 = k
    · subst he
      simp only [eraseA, if_pos rfl]
      exact (lookupA_eq_none_iff rest k1).mpr h.1
    · simp only [eraseA, if_neg he, lookupA, if_neg he]
      exact ih h.2

theorem mem_of_lookupA_eq_some {α : Type} (m : List (String × α)) (k : String)
    (v : α) (h : lookupA m k = some v) : (k, v) ∈ m := by
  induction m with
  | nil => simp [lookupA] at h
  | cons e rest ih =>
    obtain ⟨k1, v1⟩ := e
    by_cases he : k1 = k
    · subst he
      simp [lookupA] at h
      simp [h]
    · simp only [lookupA, if_neg he] at h
      simp [ih h]

/-- `reapApply` for one node leaves every other node's bucket, cursor and
order membership untouched. -/
theorem reapApply_other (q : ConnectionPool) (nid : String) (L : List Connection)
    (nd : String) (hnd : nd ≠ nid) :
    lookupA (ConnectionPool.reapApply q nid L).nodeConnections nd
      = lookupA q.nodeConnections nd ∧
    lookupA (ConnectionPool.reapApply q nid L).nodeRoundRobinIndices nd
      = lookupA q.nodeRoundRobinIndices nd ∧
    (nd ∈ (ConnectionPool.reapApply q nid L).nodeOrder ↔ nd ∈ q.nodeOrder) := by
  refine ⟨?_, ?_, ?_⟩ <;>
    · unfold ConnectionPool.reapApply ConnectionPool.eraseFromOrder
      by_cases hmo : nid ∈ q.nodeOrder <;> split_ifs <;>
        simp [hmo, lookupA_setA_ne _ _ hnd, lookupA_eraseA_ne _ hnd,
          List.mem_erase_of_ne hnd]

/-- A full `RemoveIdleConnections` iteration for one node leaves every other
node's bucket, cursor and order membership untouched. -/
theorem reapStep_preserves_other (now t m : Int) (q : ConnectionPool)
    (nid : String) (B' : List Connection) (nd : String) (hnd : nd ≠ nid) :
    lookupA (ConnectionPool.reapStep now t m q nid B').1.nodeConnections nd
      = lookupA q.nodeConnections nd ∧
    lookupA (ConnectionPool.reapStep now t m q nid B').1.nodeRoundRobinIndices nd
      = lookupA q.nodeRoundRobinIndices nd ∧
    (nd ∈ (ConnectionPool.reapStep now t m q nid B').1.nodeOrder ↔ nd ∈ q.nodeOrder) := by
  unfold ConnectionPool.reapStep
  dsimp only
  split_ifs <;> first
    | exact ⟨rfl, rfl, Iff.rfl⟩
    | exact reapApply_other q nid _ nd hnd

/-- `reapApply` preserves key and order duplicate-freeness. -/
theorem reapApply_invariants (q : ConnectionPool) (nid : String)
    (L : List Connection)
    (hk : (keysA q.nodeConnections).Nodup) (ho : q.nodeOrder.Nodup) :
    (keysA (ConnectionPool.reapApply q nid L).nodeConnections).Nodup ∧
    (ConnectionPool.reapApply q nid L).nodeOrder.Nodup := by
  refine ⟨?_, ?_⟩ <;>
    · unfold ConnectionPool.reapApply ConnectionPool.eraseFromOrder
      by_cases hmo : nid ∈ q.nodeOrder <;> split_ifs <;>
        simp [hmo, keysA_eraseA, List.Nodup.erase, nodup_keysA_setA, hk, ho,
          List.Nodup.erase _ (nodup_keysA_setA q.nodeConnections nid L hk)]

/-- A full `RemoveIdleConnections` iteration preserves key and order
duplicate-freeness. -/
theorem reapStep_invariants (now t m : Int) (q : ConnectionPool)
    (nid : String) (B' : List Connection)
    (hk : (keysA q.nodeConnections).Nodup) (ho : q.nodeOrder.Nodup) :
    (keysA (ConnectionPool.reapStep now t m q nid B').1.nodeConnections).Nodup ∧
    (ConnectionPool.reapStep now t m q nid B').1.nodeOrder.Nodup := by
  unfold ConnectionPool.reapStep
  dsimp only
  split_ifs <;> first
    | exact ⟨hk, ho⟩
    | exact reapApply_invariants q nid _ hk ho

/-- `reapApply` with a non-empty new bucket: the bucket is installed, the
node stays in the order, and the cursor ends up in range. -/
theorem reapApply_self_nonempty (q : ConnectionPool) (nid : String)
    (L : List Connection) (hL : L ≠ []) :
    lookupA (ConnectionPool.reapApply q nid L).nodeConnections nid = some L ∧
    (ConnectionPool.reapApply q nid L).nodeOrder = q.nodeOrder ∧
    ConnectionPool.rrOf (ConnectionPool.reapApply q nid L) nid < L.length := by
  have hemp : L.isEmpty = false := by simp [List.isEmpty_iff, hL]
  unfold ConnectionPool.reapApply
  dsimp only
  simp only [hemp, Bool.false_eq_true, if_false]
  refine ⟨?_, ?_, ?_⟩
  · exact lookupA_setA_self _ _ _
  · trivial
  · show (lookupA (if ConnectionPool.rrOf q nid ≥ L.length
        then setA q.nodeRoundRobinIndices nid 0
        else q.nodeRoundRobinIndices) nid).getD 0 < L.length
    by_cases hc : ConnectionPool.rrOf q nid ≥ L.length
    · rw [if_pos hc, lookupA_setA_self]
      simpa using List.length_pos.mpr hL
    · rw [if_neg hc]
      exact lt_of_not_ge hc

/-- `reapApply` with an empty new bucket: the node disappears from the
mapping and the ordered node list. -/
theorem reapApply_self_empty (q : ConnectionPool) (nid : String)
    (hk : (keysA q.nodeConnections).Nodup) (ho : q.nodeOrder.Nodup) :
    lookupA (ConnectionPool.reapApply q nid []).nodeConnections nid = none ∧
    nid ∉ (ConnectionPool.reapApply q nid []).nodeOrder := by
  unfold ConnectionPool.reapApply ConnectionPool.eraseFromOrder
  dsimp only
  simp only [List.isEmpty_nil, if_true]
  by_cases hmo : nid ∈ q.nodeOrder
  · rw [if_pos hmo]
    exact ⟨lookupA_eraseA_self_of_nodup _ _ (nodup_keysA_setA _ _ _ hk),
      ho.not_mem_erase⟩
  · rw [if_neg hmo]
    exact ⟨lookupA_eraseA_self_of_nodup _ _ (nodup_keysA_setA _ _ _ hk), hmo⟩

/-- `reapStep` on the node's own entry, characterised through `reapBucket`. -/
theorem reapStep_self (now t m : Int) (q : ConnectionPool) (nd : String)
    (B : List Connection)
    (hk : (keysA q.nodeConnections).Nodup) (ho : q.nodeOrder.Nodup)
    (hB : lookupA q.nodeConnections nd = some B)
    (hrr : ConnectionPool.rrOf q nd < B.length)
    (hmem : nd ∈ q.nodeOrder) :
    (ConnectionPool.reapBucket now t m B ≠ [] →
      lookupA (ConnectionPool.reapStep now t m q nd B).1.nodeConnections nd
          = some (ConnectionPool.reapBucket now t m B) ∧
      nd ∈ (ConnectionPool.reapStep now t m q nd B).1.nodeOrder ∧
      ConnectionPool.rrOf (ConnectionPool.reapStep now t m q nd B).1 nd
          < (ConnectionPool.reapBucket now t m B).length) ∧
    (ConnectionPool.reapBucket now t m B = [] →
      lookupA (ConnectionPool.reapStep now t m q nd B).1.nodeConnections nd = none ∧
      nd ∉ (ConnectionPool.reapStep now t m q nd B).1.nodeOrder) := by
  have hBne : B ≠ [] := by
    intro hB0
    rw [hB0] at hrr
    simp at hrr
  unfold ConnectionPool.reapStep
  dsimp only
  by_cases h1 : (B.length : Int) ≤ m
  · rw [if_pos h1]
    have hLB : ConnectionPool.reapBucket now t m B = B := by
      unfold ConnectionPool.reapBucket
      rw [if_pos h1]
    rw [hLB]
    exact ⟨fun _ => ⟨hB, hmem, hrr⟩, fun hE => absurd hE hBne⟩
  · rw [if_neg h1]
    by_cases h2 : min ((B.filter (fun cn => ConnectionPool.isIdle now t cn)).length : Int)
        ((B.length : Int) - m) ≤ 0
    · rw [if_pos h2]
      have hLB : ConnectionPool.reapBucket now t m B = B := by
        unfold ConnectionPool.reapBucket
        rw [if_neg h1]
        dsimp only
        rw [if_pos h2]
      rw [hLB]
      exact ⟨fun _ => ⟨hB, hmem, hrr⟩, fun hE => absurd hE hBne⟩
    · rw [if_neg h2]
      constructor
      · intro hLne
        obtain ⟨g1, g2, g3⟩ := reapApply_self_nonempty q nd _ hLne
        refine ⟨g1, ?_, g3⟩
        rw [g2]
        exact hmem
      · intro hLe
        rw [hLe]
        exact reapApply_self_empty q nd hk ho

/-- Folding the reap over entries whose keys all differ from `nd` leaves
`nd`'s bucket, cursor and order membership unchanged. -/
theorem reapFold_other (now t m : Int) (es : List (String × List Connection))
    (nd : String) (hne : ∀ e ∈ es, e.1 ≠ nd) :
    ∀ a : ConnectionPool × Nat,
    lookupA (es.foldl (ConnectionPool.reapFoldStep now t m) a).1.nodeConnections nd
      = lookupA a.1.nodeConnections nd ∧
    lookupA (es.foldl (ConnectionPool.reapFoldStep now t m) a).1.nodeRoundRobinIndices nd
      = lookupA a.1.nodeRoundRobinIndices nd ∧
    (nd ∈ (es.foldl (ConnectionPool.reapFoldStep now t m) a).1.nodeOrder
      ↔ nd ∈ a.1.nodeOrder) := by
  induction es with
  | nil => exact fun a => ⟨rfl, rfl, Iff.rfl⟩
  | cons e es' ih =>
    intro a
    have hstep := reapStep_preserves_other now t m a.1 e.1 e.2 nd
      (Ne.symm (hne e (by simp)))
    have hrest := ih (fun x hx => hne x (by simp [hx]))
      (ConnectionPool.reapFoldStep now t m a e)
    simp only [List.foldl_cons]
    refine ⟨?_, ?_, ?_⟩
    · rw [hrest.1]
      exact hstep.1
    · rw [hrest.2.1]
      exact hstep.2.1
    · rw [hrest.2.2]
      exact hstep.2.2

/-- The reap fold, viewed from one node `nd` holding bucket `B`. -/
theorem reapFold_self (now t m : Int) (es : List (String × List Connection))
    (nd : String) (B : List Connection) :
    ∀ (q : ConnectionPool) (acc : Nat),
    (nd, B) ∈ es → (keysA es).Nodup →
    (keysA q.nodeConnections).Nodup → q.nodeOrder.Nodup →
    lookupA q.nodeConnections nd = some B →
    ConnectionPool.rrOf q nd < B.length → nd ∈ q.nodeOrder →
    (ConnectionPool.reapBucket now t m B ≠ [] →
      lookupA (es.foldl (ConnectionPool.reapFoldStep now t m) (q, acc)).1.nodeConnections nd
          = some (ConnectionPool.reapBucket now t m B) ∧
      nd ∈ (es.foldl (ConnectionPool.reapFoldStep now t m) (q, acc)).1.nodeOrder ∧
      ConnectionPool.rrOf (es.foldl (ConnectionPool.reapFoldStep now t m) (q, acc)).1 nd
          < (ConnectionPool.reapBucket now t m B).length) ∧
    (ConnectionPool.reapBucket now t m B = [] →
      lookupA (es.foldl (ConnectionPool.reapFoldStep now t m) (q, acc)).1.nodeConnections nd
          = none ∧
      nd ∉ (es.foldl (ConnectionPool.reapFoldStep now t m) (q, acc)).1.nodeOrder) := by
  induction es with
  | nil => intro q acc hmem; simp at hmem
  | cons e es' ih =>
    intro q acc hmem hkes hk ho hB hrr hord
    simp only [keysA, List.map_cons, List.nodup_cons] at hkes
    by_cases he : e.1 = nd
    · have hend : e = (nd, B) := by
        rcases List.mem_cons.mp hmem with h | h
        · exact h.symm
        · exfalso
          apply hkes.1
          rw [he]
          exact List.mem_map.mpr ⟨(nd, B), h, rfl⟩
      subst hend
      have hkes1 : nd ∉ List.map Prod.fst es' := hkes.1
      simp only [List.foldl_cons]
      have hself := reapStep_self now t m q nd B hk ho hB hrr hord
      have hother := reapFold_other now t m es' nd
        (fun x hx => fun hc => hkes1 (by
          rw [← hc]
          exact List.mem_map.mpr ⟨x, hx, rfl⟩))
        (ConnectionPool.reapFoldStep now t m (q, acc) (nd, B))
      have hstep1 : (ConnectionPool.reapFoldStep now t m (q, acc) (nd, B)).1
          = (ConnectionPool.reapStep now t m q nd B).1 := rfl
      constructor
      · intro hLne
        obtain ⟨g1, g2, g3⟩ := hself.1 hLne
        refine ⟨?_, ?_, ?_⟩
        · rw [hother.1, hstep1]
          exact g1
        · rw [hother.2.2, hstep1]
          exact g2
        · show ConnectionPool.rrOf _ _ < _
          unfold ConnectionPool.rrOf
          rw [hother.2.1, hstep1]
          unfold ConnectionPool.rrOf at g3
          exact g3
      · intro hLe
        obtain ⟨g1, g2⟩ := hself.2 hLe
        constructor
        · rw [hother.1, hstep1]
          exact g1
        · rw [hother.2.2, hstep1]
          exact g2
    · have hmem' : (nd, B) ∈ es' := by
        rcases List.mem_cons.mp hmem with h | h
        · exfalso
          apply he
          rw [← h]
        · exact h
      have hpres := reapStep_preserves_other now t m q e.1 e.2 nd
        (Ne.symm he)
      have hinv := reapStep_invariants now t m q e.1 e.2 hk ho
      simp only [List.foldl_cons]
      have hstep1 : (ConnectionPool.reapFoldStep now t m (q, acc) e).1
          = (ConnectionPool.reapStep now t m q e.1 e.2).1 := rfl
      have hB' : lookupA (ConnectionPool.reapFoldStep now t m (q, acc) e).1.nodeConnections nd
          = some B := by
        rw [hstep1, hpres.1]
        exact hB
      have hrr' : ConnectionPool.rrOf (ConnectionPool.reapFoldStep now t m (q, acc) e).1 nd
          < B.length := by
        unfold ConnectionPool.rrOf
        rw [hstep1, hpres.2.1]
        exact hrr
      have hord' : nd ∈ (ConnectionPool.reapFoldStep now t m (q, acc) e).1.nodeOrder := by
        rw [hstep1]
        exact hpres.2.2.mpr hord
      have := ih (ConnectionPool.reapFoldStep now t m (q, acc) e).1
        (ConnectionPool.reapFoldStep now t m (q, acc) e).2 hmem' hkes.2
        (by rw [hstep1]; exact hinv.1) (by rw [hstep1]; exact hinv.2)
        hB' hrr' hord'
      simpa using this

theorem reapBucket_keeps_active (now t m : Int) (B : List Connection)
    (cn : Connection) (hcn : cn ∈ B)
    (hact : ConnectionPool.isIdle now t cn = false) :
    cn ∈ ConnectionPool.reapBucket now t m B := by
  unfold ConnectionPool.reapBucket
  dsimp only
  split_ifs with h1 h2 h3
  · exact hcn
  · exact hcn
  · exact List.mem_append_left _ (List.mem_filter.mpr ⟨hcn, by simp [hact]⟩)
  · exact List.mem_append_left _ (List.mem_filter.mpr ⟨hcn, by simp [hact]⟩)

theorem reapBucket_removes_only_idle (now t m : Int) (B : List Connection)
    (cn : Connection) (hcn : cn ∈ B)
    (hout : cn ∉ ConnectionPool.reapBucket now t m B) :
    ConnectionPool.isIdle now t cn = true := by
  by_contra h
  have hf : ConnectionPool.isIdle now t cn = false := by
    simpa using h
  exact hout (reapBucket_keeps_active now t m B cn hcn hf)

theorem reapBucket_min_size (now t m : Int) (B : List Connection)
    (h : m < (B.length : Int)) :
    m ≤ ((ConnectionPool.reapBucket now t m B).length : Int) := by
  have hpart : B.length
      = (B.filter (fun cn => ConnectionPool.isIdle now t cn)).length
        + (B.filter (fun cn => ! ConnectionPool.isIdle now t cn)).length :=
    List.length_eq_length_filter_add _
  unfold ConnectionPool.reapBucket
  dsimp only
  split_ifs with h1 h2 h3
  · omega
  · omega
  · simp only [List.length_append, List.length_take]
    omega
  · simp only [List.length_append, List.length_nil]
    omega

/-- C6. `RemoveIdleConnections(idleTimeout, minSizePerNode)`, seen from any
one node `nd` holding bucket `B` (under the pool's structural invariants:
unique keys, unique order entries, the node listed in the order, cursor in
range): it keeps every recently used session, removes only idle sessions,
never brings a node that started above the minimum below it, leaves the
surviving node's cursor in range (resetting it to 0 when it fell out of
range), and when the bucket empties it removes the node from the mapping and
the ordered node list. -/
theorem c6_remove_idle_per_node (now t m : Int) (p : ConnectionPool)
    (nd : String) (B : List Connection)
    (hk : (keysA p.nodeConnections).Nodup)
    (ho : p.nodeOrder.Nodup)
    (hB : lookupA p.nodeConnections nd = some B)
    (hrr : ConnectionPool.rrOf p nd < B.length)
    (hmem : nd ∈ p.nodeOrder) :
    (∀ cn ∈ B, ConnectionPool.isIdle now t cn = false →
      cn ∈ ConnectionPool.reapBucket now t m B) ∧
    (∀ cn ∈ B, cn ∉ ConnectionPool.reapBucket now t m B →
      ConnectionPool.isIdle now t cn = true) ∧
    (m < (B.length : Int) → m ≤ ((ConnectionPool.reapBucket now t m B).length : Int)) ∧
    (ConnectionPool.reapBucket now t m B ≠ [] →
      lookupA (p.removeIdleConnections now t m).1.nodeConnections nd
          = some (ConnectionPool.reapBucket now t m B) ∧
      nd ∈ (p.removeIdleConnections now t m).1.nodeOrder ∧
      ConnectionPool.rrOf (p.removeIdleConnections now t m).1 nd
          < (ConnectionPool.reapBucket now t m B).length) ∧
    (ConnectionPool.reapBucket now t m B = [] →
      lookupA (p.removeIdleConnections now t m).1.nodeConnections nd = none ∧
      nd ∉ (p.removeIdleConnections now t m).1.nodeOrder) := by
  have hfold := reapFold_self now t m p.nodeConnections nd B p 0
    (mem_of_lookupA_eq_some _ _ _ hB) hk hk ho hB hrr hmem
  refine ⟨fun cn hcn ha => reapBucket_keeps_active now t m B cn hcn ha,
    fun cn hcn hout => reapBucket_removes_only_idle now t m B cn hcn hout,
    fun hlt => reapBucket_min_size now t m B hlt, ?_, ?_⟩
  · unfold ConnectionPool.removeIdleConnections
    exact hfold.1
  · unfold ConnectionPool.removeIdleConnections
    exact hfold.2

/-- C6 witness: reaping `c6Pool` (three sessions, two idle, minimum 2)
removes one idle session, keeps the recent one, holds the node at the
minimum of 2 and keeps the cursor in range. -/
theorem c6_witness :
    lookupA ((c6Pool.removeIdleConnections 100 10 2).1).nodeConnections "n1"
        = some (ConnectionPool.reapBucket 100 10 2 c6Bucket) ∧
    "n1" ∈ ((c6Pool.removeIdleConnections 100 10 2).1).nodeOrder ∧
    (2 : Int) ≤ ((ConnectionPool.reapBucket 100 10 2 c6Bucket).length : Int) := by
  have h := c6_remove_idle_per_node 100 10 2 c6Pool "n1" c6Bucket
    (by decide) (by decide) (by decide) (by decide) (by decide)
  have h4 := h.2.2.2.1 (by decide)
  exact ⟨h4.1, h4.2.1, h.2.2.1 (by decide)⟩

/-! ## Cleanup stats lemmas -/

theorem cleanupStatsPass_other (ks : List String)
    (m : List (String × ConnectionStats)) (f : String → Int) (w : Nat) (now : Int)
    (k : String) (hk : k ∉ ks) :
    lookupA (Client.cleanupStatsPass m ks f w now) k = lookupA m k := by
  induction ks generalizing m with
  | nil => rfl
  | cons k0 ks' ih =>
    simp only [List.mem_cons, not_or] at hk
    unfold Client.cleanupStatsPass
    simp only [List.foldl_cons]
    rw [show (List.foldl _ _ ks' : List (String × ConnectionStats))
        = Client.cleanupStatsPass (setA m k0 _) ks' f w now from rfl]
    rw [ih _ hk.2]
    exact lookupA_setA_ne _ _ (fun hc => hk.1 hc)

theorem cleanupStatsPass_keys_nodup (ks : List String)
    (m : List (String × ConnectionStats)) (f : String → Int) (w : Nat) (now : Int)
    (hm : (keysA m).Nodup) :
    (keysA (Client.cleanupStatsPass m ks f w now)).Nodup := by
  induction ks generalizing m with
  | nil => exact hm
  | cons k0 ks' ih =>
    unfold Client.cleanupStatsPass
    simp only [List.foldl_cons]
    rw [show (List.foldl _ _ ks' : List (String × ConnectionStats))
        = Client.cleanupStatsPass (setA m k0 _) ks' f w now from rfl]
    exact ih _ (nodup_keysA_setA _ _ _ hm)

theorem cleanupStatsPass_lookup (ks : List String)
    (m : List (String × ConnectionStats)) (f : String → Int) (w : Nat) (now : Int)
    (hnd : ks.Nodup) (k : String) (hk : k ∈ ks) (st : ConnectionStats)
    (hst : lookupA m k = some st) :
    lookupA (Client.cleanupStatsPass m ks f w now) k
      = some { st with currentConnections := f k, lastScaleDown := now,
                       lastCleanup := now,
                       scaleDownEvents := st.scaleDownEvents + 1 } := by
  induction ks generalizing m with
  | nil => simp at hk
  | cons k0 ks' ih =>
    simp only [List.nodup_cons] at hnd
    unfold Client.cleanupStatsPass
    simp only [List.foldl_cons]
    by_cases he : k0 = k
    · subst he
      rw [show (List.foldl _ _ ks' : List (String × ConnectionStats))
          = Client.cleanupStatsPass
              (setA m k0 { (lookupA m k0).getD (Client.freshStats k0 w now) with
                currentConnections := f k0, lastScaleDown := now, lastCleanup := now,
                scaleDownEvents :=
                  ((lookupA m k0).getD (Client.freshStats k0 w now)).scaleDownEvents + 1 })
              ks' f w now from rfl]
      rw [cleanupStatsPass_other ks' _ f w now k0 hnd.1]
      rw [hst]
      simp only [Option.getD_some]
      exact lookupA_setA_self _ _ _
    · have hk' : k ∈ ks' := by
        rcases List.mem_cons.mp hk with h | h
        · exact absurd h.symm he
        · exact h
      rw [show (List.foldl _ _ ks' : List (String × ConnectionStats))
          = Client.cleanupStatsPass
              (setA m k0 { (lookupA m k0).getD (Client.freshStats k0 w now) with
                currentConnections := f k0, lastScaleDown := now, lastCleanup := now,
                scaleDownEvents :=
                  ((lookupA m k0).getD (Client.freshStats k0 w now)).scaleDownEvents + 1 })
              ks' f w now from rfl]
      exact ih _ hnd.2 hk'
        (by rw [lookupA_setA_ne _ _ (fun hc => he hc.symm)]; exact hst)

/-- C9. What periodic cleanup does to the stats maps: when the read pool
shed idle connections, every read-intent stats entry's CurrentConnections is
overwritten with the write pool's post-cleanup size for that node; when the
write pool shed idle connections, the read-intent entries are overwritten
again, now with the read pool's post-cleanup size; the write-intent stats map
is never touched by cleanup. -/
theorem c9_cleanup_stats_cross_wired (c : Client) (now : Int)
    (hst : c.status.isSome = true)
    (hkeys : (keysA c.statsPerNodeRead).Nodup) :
    (Client.cleanupIdleConnections c now).statsPerNodeWrite = c.statsPerNodeWrite ∧
    (∀ nid st, lookupA c.statsPerNodeRead nid = some st →
      ∃ st', lookupA (Client.cleanupIdleConnections c now).statsPerNodeRead nid
          = some st' ∧
        st'.currentConnections =
          (if (c.writePool.removeIdleConnections now c.poolConfig.idleTimeout
              c.poolConfig.minPoolSize).2 > 0 then
            ((c.readPool.removeIdleConnections now c.poolConfig.idleTimeout
              c.poolConfig.minPoolSize).1.sizeForNode nid : Int)
          else if (c.readPool.removeIdleConnections now c.poolConfig.idleTimeout
              c.poolConfig.minPoolSize).2 > 0 then
            ((c.writePool.removeIdleConnections now c.poolConfig.idleTimeout
              c.poolConfig.minPoolSize).1.sizeForNode nid : Int)
          else st.currentConnections)) := by
  cases hs : c.status with
  | none => rw [hs] at hst; simp at hst
  | some st0 =>
    unfold Client.cleanupIdleConnections
    rw [hs]
    dsimp only
    set rR := c.readPool.removeIdleConnections now c.poolConfig.idleTimeout
      c.poolConfig.minPoolSize with hrR
    set rW := c.writePool.removeIdleConnections now c.poolConfig.idleTimeout
      c.poolConfig.minPoolSize with hrW
    by_cases hA : rR.2 > 0 <;> by_cases hB : rW.2 > 0
    · rw [if_pos hA, if_pos hB]
      refine ⟨rfl, fun nid st hstl => ?_⟩
      dsimp only
      have h1 := cleanupStatsPass_lookup (keysA c.statsPerNodeRead)
        c.statsPerNodeRead (fun nodeID => (rW.1.sizeForNode nodeID : Int))
        c.poolConfig.usageWindowSize now hkeys nid
        (mem_keysA_of_lookupA_isSome (by simp [hstl])) st hstl
      have hnd1 := cleanupStatsPass_keys_nodup (keysA c.statsPerNodeRead)
        c.statsPerNodeRead (fun nodeID => (rW.1.sizeForNode nodeID : Int))
        c.poolConfig.usageWindowSize now hkeys
      have h2 := cleanupStatsPass_lookup
        (keysA (Client.cleanupStatsPass c.statsPerNodeRead (keysA c.statsPerNodeRead)
          (fun nodeID => (rW.1.sizeForNode nodeID : Int))
          c.poolConfig.usageWindowSize now))
        (Client.cleanupStatsPass c.statsPerNodeRead (keysA c.statsPerNodeRead)
          (fun nodeID => (rW.1.sizeForNode nodeID : Int))
          c.poolConfig.usageWindowSize now)
        (fun nodeID => (rR.1.sizeForNode nodeID : Int))
        c.poolConfig.usageWindowSize now hnd1 nid
        (mem_keysA_of_lookupA_isSome (by simp [h1])) _ h1
      refine ⟨_, h2, ?_⟩
      rw [if_pos hB]
    · rw [if_pos hA, if_neg hB]
      refine ⟨rfl, fun nid st hstl => ?_⟩
      dsimp only
      have h1 := cleanupStatsPass_lookup (keysA c.statsPerNodeRead)
        c.statsPerNodeRead (fun nodeID => (rW.1.sizeForNode nodeID : Int))
        c.poolConfig.usageWindowSize now hkeys nid
        (mem_keysA_of_lookupA_isSome (by simp [hstl])) st hstl
      refine ⟨_, h1, ?_⟩
      rw [if_neg hB, if_pos hA]
    · rw [if_neg hA, if_pos hB]
      refine ⟨rfl, fun nid st hstl => ?_⟩
      dsimp only
      have h2 := cleanupStatsPass_lookup (keysA c.statsPerNodeRead)
        c.statsPerNodeRead (fun nodeID => (rR.1.sizeForNode nodeID : Int))
        c.poolConfig.usageWindowSize now hkeys nid
        (mem_keysA_of_lookupA_isSome (by simp [hstl])) st hstl
      refine ⟨_, h2, ?_⟩
      rw [if_pos hB]
    · rw [if_neg hA, if_neg hB]
      exact ⟨rfl, fun nid st hstl => ⟨st, hstl, by rw [if_neg hB, if_neg hA]⟩⟩

/-- C9 witness: on `c9Client` both pools shed idle sessions, so the
read-intent entry for `"n1"` ends with CurrentConnections equal to the read
pool's post-cleanup size (1), and the write-intent map stays empty. -/
theorem c9_witness :
    (∃ st', lookupA (Client.cleanupIdleConnections c9Client 100).statsPerNodeRead "n1"
        = some st' ∧ st'.currentConnections = 1) ∧
    (Client.cleanupIdleConnections c9Client 100).statsPerNodeWrite
        = c9Client.statsPerNodeWrite := by
  have h := c9_cleanup_stats_cross_wired c9Client 100 (by decide) (by decide)
  obtain ⟨st', h1, h2⟩ := h.2 "n1" c9Stats (by decide)
  refine ⟨⟨st', h1, ?_⟩, h.1⟩
  rw [h2]
  decide

/-! ## Take-next scan lemmas -/

theorem get_q_eq_some_getD {α : Type} (l : List α) (i : Nat) (d : α)
    (h : i < l.length) : l.get? i = some (l.getD i d) := by
  rw [List.getD_eq_getElem?_getD, List.get?_eq_getElem?, List.getElem?_eq_getElem h]
  rfl

theorem getConnScan_empty_all (now : Int) (p : ConnectionPool) :
    ∀ (k i : Nat),
    (∀ j, i ≤ j → j < i + k →
      ConnectionPool.bucketOf p
        (p.nodeOrder.getD ((p.nodeOrderIndex + j) % p.nodeOrder.length) "") = []) →
    ConnectionPool.getConnScan now p i k
      = .error ConnectionPool.GetConnErr.noConnectionsDespiteNodes := by
  intro k
  induction k with
  | zero => intro i h; rfl
  | succ fuel ih =>
    intro i h
    have hi : ConnectionPool.bucketOf p
        (p.nodeOrder.getD ((p.nodeOrderIndex + i) % p.nodeOrder.length) "") = [] :=
      h i (le_refl i) (by omega)
    simp only [ConnectionPool.getConnScan]
    rw [hi]
    simp only [List.isEmpty_nil, if_true]
    exact ih (i + 1) (fun j hj1 hj2 => h j (by omega) (by omega))

theorem getConnScan_hit (now : Int) (p : ConnectionPool) :
    ∀ (k i j : Nat), i ≤ j → j < i + k →
    ConnectionPool.bucketOf p
      (p.nodeOrder.getD ((p.nodeOrderIndex + j) % p.nodeOrder.length) "") ≠ [] →
    ConnectionPool.rrOf p
        (p.nodeOrder.getD ((p.nodeOrderIndex + j) % p.nodeOrder.length) "")
      < (ConnectionPool.bucketOf p
          (p.nodeOrder.getD ((p.nodeOrderIndex + j) % p.nodeOrder.length) "")).length →
    (∀ l, i ≤ l → l < j →
      ConnectionPool.bucketOf p
        (p.nodeOrder.getD ((p.nodeOrderIndex + l) % p.nodeOrder.length) "") = []) →
    ConnectionPool.getConnScan now p i k = .ok (c4Served now p j) := by
  intro k
  induction k with
  | zero => intro i j h1 h2; omega
  | succ fuel ih =>
    intro i j h1 h2 hne hrr hpre
    by_cases hij : i = j
    · subst hij
      have hemp : (ConnectionPool.bucketOf p
          (p.nodeOrder.getD ((p.nodeOrderIndex + i) % p.nodeOrder.length) "")).isEmpty
            = false := by
        simpa [List.isEmpty_iff] using hne
      have hget := get_q_eq_some_getD _ _ dummyConn hrr
      simp only [ConnectionPool.getConnScan]
      rw [hemp]
      simp only [Bool.false_eq_true, if_false]
      rw [hget]
      rfl
    · have hlt : i < j := lt_of_le_of_ne h1 hij
      have hi : ConnectionPool.bucketOf p
          (p.nodeOrder.getD ((p.nodeOrderIndex + i) % p.nodeOrder.length) "") = [] :=
        hpre i (le_refl i) hlt
      simp only [ConnectionPool.getConnScan]
      rw [hi]
      simp only [List.isEmpty_nil, if_true]
      exact ih (i + 1) j hlt (by omega) hne hrr
        (fun l hl1 hl2 => hpre l (by omega) hl2)

/-- C4. `take-next` (GetConnection, pool.go): if every node's bucket is
empty the call fails with a no-sessions error; otherwise, when the first
non-empty bucket sits at scan offset `j` from the node cursor (and that
node's cursor is in range, the pool's own invariant), the call returns
exactly the spec-prescribed outcome `c4Served`: the session at that node's
cursor, last-used stamped, per-node cursor advanced modulo the bucket size,
and the node cursor advanced past the served node. -/
theorem c4_take_next_spec (now : Int) (p : ConnectionPool) :
    ((∀ x ∈ p.nodeOrder, ConnectionPool.bucketOf p x = []) →
      ∃ e, ConnectionPool.getConnection now p = .error e ∧
        (e = ConnectionPool.GetConnErr.noConnectionsAvailable ∨
         e = ConnectionPool.GetConnErr.noConnectionsDespiteNodes)) ∧
    (∀ j, j < p.nodeOrder.length →
      ConnectionPool.bucketOf p
        (p.nodeOrder.getD ((p.nodeOrderIndex + j) % p.nodeOrder.length) "") ≠ [] →
      ConnectionPool.rrOf p
          (p.nodeOrder.getD ((p.nodeOrderIndex + j) % p.nodeOrder.length) "")
        < (ConnectionPool.bucketOf p
            (p.nodeOrder.getD ((p.nodeOrderIndex + j) % p.nodeOrder.length) "")).length →
      (∀ l, l < j →
        ConnectionPool.bucketOf p
          (p.nodeOrder.getD ((p.nodeOrderIndex + l) % p.nodeOrder.length) "") = []) →
      ConnectionPool.getConnection now p = .ok (c4Served now p j)) := by
  constructor
  · intro hall
    by_cases hN : p.nodeOrder.isEmpty = true
    · refine ⟨ConnectionPool.GetConnErr.noConnectionsAvailable, ?_, Or.inl rfl⟩
      unfold ConnectionPool.getConnection
      rw [if_pos hN]
    · have hNlen : 0 < p.nodeOrder.length := by
        cases ho : p.nodeOrder
        · rw [ho] at hN; simp at hN
        · simp [ho]
      refine ⟨ConnectionPool.GetConnErr.noConnectionsDespiteNodes, ?_, Or.inr rfl⟩
      unfold ConnectionPool.getConnection
      rw [if_neg hN]
      apply getConnScan_empty_all
      intro j hj1 hj2
      apply hall
      have hidx : (p.nodeOrderIndex + j) % p.nodeOrder.length < p.nodeOrder.length :=
        Nat.mod_lt _ hNlen
      rw [List.getD_eq_getElem?_getD, List.getElem?_eq_getElem hidx]
      exact List.getElem_mem hidx
  · intro j hj hne hrr hpre
    have hN : p.nodeOrder.isEmpty = false := by
      cases ho : p.nodeOrder
      · rw [ho] at hj; simp at hj
      · simp [ho]
    unfold ConnectionPool.getConnection
    simp only [hN, Bool.false_eq_true, if_false]
    exact getConnScan_hit now p p.nodeOrder.length 0 j (Nat.zero_le j) (by omega)
      hne hrr (fun l _ hl => hpre l hl)

/-- C4 witness: on `c4Pool` the scan skips the empty node `"a"` and serves
node `"b"` from cursor 1, with both cursors advanced. -/
theorem c4_witness :
    ConnectionPool.getConnection 50 c4Pool = .ok (c4Served 50 c4Pool 1) ∧
    (c4Served 50 c4Pool 1).2.nodeOrderIndex = 0 ∧
    ConnectionPool.rrOf (c4Served 50 c4Pool 1).2 "b" = 0 ∧
    (c4Served 50 c4Pool 1).1.lastUsed = 50 :=
  ⟨(c4_take_next_spec 50 c4Pool).2 1 (by decide) (by decide) (by decide)
      (by decide),
   by decide, by decide, by decide⟩

end GoSureSQL
